import Mathlib

/-!
Shallow embedding of the feed-synchronisation code of this repository
(src/metasploit_db/load.py, src/cisa_db/load.py, src/epss_db/load.py),
together with proofs about the claims of its specification.

Modelling conventions:
* A Python scalar cell value is a `Value`: the constructor `vnone` is Python
  `None` and also the pandas NA produced by reading an empty CSV cell is a
  float NaN, modelled as `Value.float true false "nan"`; `str` is a Python
  string; `float b1 b2 rep` is a Python float (NaN flag, infinity flag, and
  for a finite float its `str` rendering); `decimal rep` is a
  `decimal.Decimal` carrying its `str` rendering.
* Python dicts are association lists with unique keys (every dict built by
  the modelled code has unique keys); assignment `d[k] = v` is `aset`,
  `d.get(k)` is `pyGet` (returning `vnone` for a missing key, as Python
  returns `None`).
* Dict equality (used by the comparison helpers) is extensional: rows are
  compared through a canonical key-sorted form.
* The remote DynamoDB store is a pure association list; `get_item`,
  `put_item` and `scan` never fail in the model (the code's per-item
  `ClientError` handlers are unreachable here).
-/

/-- Python scalar values as seen by the load modules. -/
inductive Value where
  | vnone
  | str (s : String)
  | float (isNan : Bool) (isInf : Bool) (rep : String)
  | decimal (rep : String)
deriving DecidableEq, Repr

/-- The pandas NA cell (a float NaN), produced by reading an empty CSV cell. -/
def nanV : Value := Value.float true false "nan"

/-- Model of pd.isna: true for None and for a float NaN. -/
def pyIsna : Value → Bool
  | Value.vnone => true
  | Value.float true _ _ => true
  | _ => false

/-- Python whitespace characters removed by str.strip(). -/
def isWsChar (c : Char) : Bool :=
  c = ' ' || c = '\t' || c = '\n' || c = '\r' || c = '\x0b' || c = '\x0c'

/-- Model of str.strip(). -/
def pyStrip (s : String) : String :=
  String.mk (((s.data.dropWhile isWsChar).reverse.dropWhile isWsChar).reverse)

/-- ASCII lower-casing, model of str.lower() on the ASCII inputs this code sees. -/
def lowerChar (c : Char) : Char :=
  if 'A' ≤ c ∧ c ≤ 'Z' then Char.ofNat (c.toNat + 32) else c

/-- Model of str.lower(). -/
def lowerStr (s : String) : String := String.mk (s.data.map lowerChar)

/-- Decimal digit test on a character. -/
def isDigitB (c : Char) : Bool := '0' ≤ c && c ≤ '9'

/-- Model of str(v) for the scalar values of the embedding. -/
def pyStrV : Value → String
  | Value.vnone => "None"
  | Value.str s => s
  | Value.float true _ _ => "nan"
  | Value.float false true _ => "inf"
  | Value.float false false rep => rep
  | Value.decimal rep => rep

/-- True when every character of a numeric rendering is a zero digit, a sign
or a decimal point; used only to model Python truthiness of numbers. -/
def numRepIsZero (s : String) : Bool :=
  s.data.all (fun c => c = '0' || c = '.' || c = '-')

/-- Model of Python truthiness bool(v) for scalar values. -/
def pyTruthy : Value → Bool
  | Value.vnone => false
  | Value.str s => !(s = "")
  | Value.float true _ _ => true
  | Value.float false true _ => true
  | Value.float false false rep => !(numRepIsZero rep)
  | Value.decimal rep => !(numRepIsZero rep)

/-- Association-list lookup, model of Python dict lookup d.get(k). -/
def aget [DecidableEq κ] (m : List (κ × α)) (k : κ) : Option α :=
  (m.find? (fun kv => kv.1 = k)).map (fun kv => kv.2)

/-- Association-list update, model of Python dict assignment: an existing key
keeps its position, a new key is appended. -/
def aset [DecidableEq κ] (m : List (κ × α)) (k : κ) (v : α) : List (κ × α) :=
  if m.any (fun kv => kv.1 = k) then
    m.map (fun kv => if kv.1 = k then (k, v) else kv)
  else m ++ [(k, v)]

/-- A record/row: a Python dict from field name to scalar value. -/
abbrev Dict := List (String × Value)

/-- Model of d.get(k) on a record: Python returns None for a missing key. -/
def pyGet (d : Dict) (k : String) : Value := (aget d k).getD Value.vnone

/-- Model of Python `a or b` on scalar values (first operand if truthy). -/
def pyOr2 (a b : Value) : Value := if pyTruthy a then a else b

/-- Lexicographic comparison of strings by character code, used only to build
a canonical key order for extensional dict comparison. -/
def charsLe : List Char → List Char → Bool
  | [], _ => true
  | _ :: _, [] => false
  | a :: as, b :: bs =>
    if a.toNat < b.toNat then true
    else if b.toNat < a.toNat then false
    else charsLe as bs

/-- Insert a key into a sorted duplicate-free key list. -/
def keyInsert (k : String) : List String → List String
  | [] => [k]
  | h :: t =>
    if k = h then h :: t
    else if charsLe k.data h.data then k :: h :: t
    else h :: keyInsert k t

/-- Sorted duplicate-free list of the keys of an association list. -/
def sortedKeys (l : List (String × α)) : List String :=
  l.foldl (fun ks kv => keyInsert kv.1 ks) []

-- ---------------------------------------------------------------------------
-- src/metasploit_db/load.py
-- ---------------------------------------------------------------------------

/-- True when the string ends in ".0" (model of str.endswith applied by
normalize_value to float renderings). -/
def endsDot0 (s : String) : Bool :=
  match s.data.reverse with
  | '0' :: '.' :: _ => true
  | _ => false

/-- Drop the final two characters of a string (s[:-2]). -/
def dropLast2 (s : String) : String :=
  String.mk (s.data.take (s.data.length - 2))

/-- normalize_value of src/metasploit_db/load.py lines 62-81: normalize a cell
value for stable comparison. -/
def normalize_value : Value → Option String
  | Value.vnone => Option.none
  | Value.float true _ _ => Option.none
  | Value.float false true _ => Option.none
  | Value.float false false rep =>
    some (if endsDot0 rep then dropLast2 rep else rep)
  | Value.decimal rep => some rep
  | Value.str s =>
    let t := pyStrip s
    if t = "" || lowerStr t = "nan" || lowerStr t = "none" then Option.none
    else some t

/-- normalize_row_for_compare (load.py line 83-84): normalize every field and
drop uploaded_date. -/
def normEntries (d : Dict) : List (String × Option String) :=
  (d.filter (fun kv => !(kv.1 = "uploaded_date"))).map
    (fun kv => (kv.1, normalize_value kv.2))

/-- Canonical (key-sorted, first-binding) form of a normalized row, so that
list-level equality coincides with Python dict equality on unique-key rows. -/
def canonNorm (d : Dict) : List (String × Option (Option String)) :=
  let ne := normEntries d
  (sortedKeys ne).map (fun k => (k, (ne.find? (fun kv => kv.1 = k)).map (fun kv => kv.2)))

/-- rows_differ of src/metasploit_db/load.py lines 86-87. -/
def rows_differ (a b : Dict) : Bool :=
  if canonNorm a = canonNorm b then false else true

-- ---------------------------------------------------------------------------
-- src/cisa_db/load.py helpers
-- ---------------------------------------------------------------------------

/-- items_equal of src/cisa_db/load.py lines 77-88: shallow comparison driven
by the fields of the first record, ignoring uploaded_date. -/
def items_equal (ra : Dict) (rb : Option Dict) : Bool :=
  match rb with
  | Option.none => false
  | some b => ra.all (fun kv => kv.1 = "uploaded_date" || pyGet ra kv.1 = pyGet b kv.1)

-- ---------------------------------------------------------------------------
-- Surrogate id allocator (src/metasploit_db/load.py lines 116-138)
-- ---------------------------------------------------------------------------

/-- Decimal digit character of a value below ten. -/
def digitChar : Nat → Char
  | 0 => '0' | 1 => '1' | 2 => '2' | 3 => '3' | 4 => '4'
  | 5 => '5' | 6 => '6' | 7 => '7' | 8 => '8' | _ => '9'

/-- Decimal digits of a natural number, most significant first; fuel-driven so
that the definition is structurally recursive (fuel n+1 always suffices). -/
def natDigitsAux : Nat → Nat → List Char
  | 0, _ => []
  | fuel + 1, n =>
    if n < 10 then [digitChar n]
    else natDigitsAux fuel (n / 10) ++ [digitChar (n % 10)]

/-- Decimal rendering of a natural number (model of Python str(n)). -/
def natRepr (n : Nat) : List Char := natDigitsAux (n + 1) n

/-- Numeric value of a list of decimal digit characters (model of int(s)). -/
def digitsVal (cs : List Char) : Nat :=
  cs.foldl (fun a c => a * 10 + (c.toNat - 48)) 0

/-- Model of str.zfill: left-pad with zeros to the given width. -/
def zfill (w : Nat) (cs : List Char) : List Char :=
  List.replicate (w - cs.length) '0' ++ cs

/-- Tail of parse_meta_id after the "META-" prefix: exactly four digits, a
dash, then a non-empty run of digits (the regex (\d 4)-0*(\d +)$). -/
def parse_year_seq : List Char → Option (Nat × Nat)
  | a :: b :: c :: d :: e :: tail =>
    if e = '-' ∧ isDigitB a ∧ isDigitB b ∧ isDigitB c ∧ isDigitB d
        ∧ tail ≠ [] ∧ tail.all isDigitB then
      some (digitsVal [a, b, c, d], digitsVal tail)
    else Option.none
  | _ => Option.none

/-- parse_meta_id of src/metasploit_db/load.py lines 117-128: parse an id of
the shape META-YYYY-NNNNNN into (year, sequence). -/
def parse_meta_id (v : Value) : Option (Nat × Nat) :=
  if pyTruthy v = false then Option.none
  else
    match (pyStrV v).data with
    | p1 :: p2 :: p3 :: p4 :: p5 :: rest =>
      if p1 = 'M' ∧ p2 = 'E' ∧ p3 = 'T' ∧ p4 = 'A' ∧ p5 = '-' then parse_year_seq rest
      else Option.none
    | _ => Option.none

/-- One step of the max_seq loop of next_meta_id_for_year. -/
def max_seq_step (year acc : Nat) (mid : Value) : Nat :=
  match parse_meta_id mid with
  | some (y, seq) => if y = year && acc < seq then seq else acc
  | Option.none => acc

/-- The max_seq loop of next_meta_id_for_year (load.py lines 131-136). -/
def max_seq_for_year (existing : List Value) (year : Nat) : Nat :=
  existing.foldl (max_seq_step year) 0

/-- next_meta_id_for_year of src/metasploit_db/load.py lines 130-138. -/
def next_meta_id_for_year (existing : List Value) (year : Nat) : String :=
  String.mk ("META-".data ++ natRepr year
    ++ '-' :: zfill 6 (natRepr (max_seq_for_year existing year + 1)))

-- ---------------------------------------------------------------------------
-- CVE and year extraction (src/metasploit_db/load.py lines 140-182)
-- ---------------------------------------------------------------------------

/-- Match of the CVE regex (CVE-\d 4-\d 4,7), case-insensitive and greedy,
anchored at the head of the character list; returns the matched text (already
upper-cased, as extract_cve applies .upper() and digits are unaffected). -/
def cveAt (cs : List Char) : Option (List Char) :=
  match cs with
  | c1 :: c2 :: c3 :: c4 :: rest =>
    if lowerChar c1 = 'c' ∧ lowerChar c2 = 'v' ∧ lowerChar c3 = 'e' ∧ c4 = '-' then
      match rest with
      | d1 :: d2 :: d3 :: d4 :: c5 :: rest2 =>
        if isDigitB d1 ∧ isDigitB d2 ∧ isDigitB d3 ∧ isDigitB d4 ∧ c5 = '-' then
          let digs := (rest2.takeWhile isDigitB).take 7
          if 4 ≤ digs.length then
            some ('C' :: 'V' :: 'E' :: '-' :: d1 :: d2 :: d3 :: d4 :: '-' :: digs)
          else Option.none
        else Option.none
      | _ => Option.none
    else Option.none
  | _ => Option.none

/-- Leftmost CVE regex match in a character list (model of re.search). -/
def searchCve : List Char → Option (List Char)
  | [] => Option.none
  | c :: rest =>
    match cveAt (c :: rest) with
    | some m => some m
    | Option.none => searchCve rest

/-- extract_cve of src/metasploit_db/load.py lines 173-182. -/
def extract_cve (v : Value) : Option String :=
  if pyTruthy v = false then Option.none
  else (searchCve (pyStrV v).data).map String.mk

/-- The extracted CVE as the value stored in the cve_id field (None when no
match). -/
def cveValue (v : Value) : Value :=
  match extract_cve v with
  | some c => Value.str c
  | Option.none => Value.vnone

/-- Four consecutive decimal digits at the head of the list, as a year. -/
def four_digit_at (cs : List Char) : Option Nat :=
  match cs with
  | a :: b :: c :: d :: _ =>
    if isDigitB a ∧ isDigitB b ∧ isDigitB c ∧ isDigitB d then
      some (digitsVal [a, b, c, d])
    else Option.none
  | _ => Option.none

/-- Leftmost run of four decimal digits (model of re.search of (\d 4)). -/
def search4 : List Char → Option Nat
  | [] => Option.none
  | c :: rest =>
    match four_digit_at (c :: rest) with
    | some y => some y
    | Option.none => search4 rest

/-- extract_year_from_mod_time of src/metasploit_db/load.py lines 140-169.
Branch 1 is the leading-year regex (four digits then a dash or slash at the
start), branch 3 the first-4-digit-run search.  The middle branch (a loop of datetime.strptime formats) is omitted:
every format in that loop starts with a dash-terminated year, so any string it
accepts with a 4-digit year is already accepted by branch 1; the model can
diverge from the source only on mod_time strings carrying a 1-3 digit
strptime year, which no theorem below exercises. -/
def extract_year_from_mod_time (v : Value) : Option Nat :=
  if pyTruthy v = false then Option.none
  else
    let cs := (pyStrip (pyStrV v)).data
    match cs with
    | a :: b :: c :: d :: e :: _ =>
      if isDigitB a ∧ isDigitB b ∧ isDigitB c ∧ isDigitB d ∧ (e = '-' ∨ e = '/') then
        some (digitsVal [a, b, c, d])
      else search4 cs
    | _ => search4 cs

/-- Model of int(str(u)[:4]) on the uploaded_date fallback (load.py lines
292-297); Python int() also tolerates signs and whitespace, which the
all-digit year prefixes of this code never carry. -/
def intPrefix4 (s : String) : Option Nat :=
  let t := s.data.take 4
  if !t.isEmpty && t.all isDigitB then some (digitsVal t) else Option.none

-- ---------------------------------------------------------------------------
-- Store-safe write coercions (metasploit load.py 349-366, epss load.py 20-53)
-- ---------------------------------------------------------------------------

/-- Split a plain decimal literal (digits, optional dot and digits) into
integer part and fractional part (fraction includes its dot). -/
def splitIntFrac (cs : List Char) : Option (List Char × List Char) :=
  let ip := cs.takeWhile isDigitB
  let rest := cs.drop ip.length
  if ip.isEmpty then Option.none
  else
    match rest with
    | [] => some (ip, [])
    | '.' :: fs =>
      if !fs.isEmpty && fs.all isDigitB then some (ip, '.' :: fs) else Option.none
    | _ => Option.none

/-- Full-anchored parse of the numeric regex ^-?\d +(\.\d +)?$ into
(sign, integer part, fractional part). -/
def parseNumLit (cs : List Char) : Option (List Char × List Char × List Char) :=
  match cs with
  | '-' :: rest => (splitIntFrac rest).map (fun p => (['-'], p.1, p.2))
  | _ => (splitIntFrac cs).map (fun p => (([] : List Char), p.1, p.2))

/-- Drop leading zero digits, keeping at least one digit. -/
def stripZeros (ds : List Char) : List Char :=
  match ds.dropWhile (fun c => c = '0') with
  | [] => ['0']
  | l => l

/-- Model of str(Decimal(s)) for a plain decimal literal s: the integer part
loses leading zeros (keeping one digit), the fractional part is kept verbatim.
Inputs not matching the plain-literal shape (e.g. scientific notation, which
Decimal would re-render and which would only widen the round-trip divergence
recorded below) are returned unchanged. -/
def decCanon (s : String) : String :=
  match parseNumLit s.data with
  | some (sgn, ip, fp) => String.mk (sgn ++ stripZeros ip ++ fp)
  | Option.none => s

/-- is_number_string of src/epss_db/load.py lines 22-26 on a string. -/
def isNumStringS (s : String) : Bool :=
  (parseNumLit (pyStrip s).data).isSome

/-- to_ddb_value of src/epss_db/load.py lines 28-53: coerce a CSV cell to a
store-safe value at write time. -/
def to_ddb_value (v : Value) : Value :=
  if pyIsna v then Value.vnone
  else
    let s := pyStrip (pyStrV v)
    if s = "" || lowerStr s = "nan" || lowerStr s = "none" then Value.vnone
    else if isNumStringS s then Value.decimal (decCanon s)
    else Value.str s

/-- The per-field safe_item coercion of src/metasploit_db/load.py lines
349-366: NaN/infinite floats become None, finite floats become
Decimal(str(v)), whitespace-only strings become None. -/
def to_safe_value : Value → Value
  | Value.float true _ _ => Value.vnone
  | Value.float false true _ => Value.vnone
  | Value.float false false rep => Value.decimal (decCanon rep)
  | Value.str s => if pyStrip s = "" then Value.vnone else Value.str s
  | v => v

example : parse_meta_id (Value.str "META-2025-000123") = some (2025, 123) := by decide
example : parse_meta_id (Value.str "META-25-000123") = Option.none := by decide
example : next_meta_id_for_year
    [Value.str "META-2025-000001", Value.str "META-2025-000002"] 2025
    = "META-2025-000003" := by decide
example : extract_cve (Value.str "CVE-2007-4387;OSVDB-37667") = some "CVE-2007-4387" := by decide
example : extract_cve (Value.vnone) = Option.none := by decide
example : extract_year_from_mod_time (Value.str "2025-05-21 08:32:40 +0000") = some 2025 := by decide
example : to_ddb_value (Value.str " 01.50 ") = Value.decimal "1.50" := by decide
example : to_safe_value (Value.float false false "1.0") = Value.decimal "1.0" := by decide

-- ---------------------------------------------------------------------------
-- The metasploit reconciliation pipeline (src/metasploit_db/load.py 200-439)
-- ---------------------------------------------------------------------------

/-- The natural key of an incoming row (load.py lines 230-234): the trimmed
str of the id column, or nothing when the cell is NA or trims to empty. -/
def module_key_of (r : Dict) : Option String :=
  let rid := pyGet r "id"
  if pyIsna rid || pyStrip (pyStrV rid) = "" then Option.none
  else some (pyStrip (pyStrV rid))

/-- The incoming map module_key -> row (load.py lines 229-234). -/
def buildNewMap (rows : List Dict) : List (String × Dict) :=
  rows.foldl
    (fun m r =>
      match module_key_of r with
      | some k => aset m k r
      | Option.none => m)
    []

/-- The baseline key of a baseline row (load.py lines 241-248): module_id,
falling back to moduleid, then to id, then once more to id when NA/empty. -/
def base_key_of (r : Dict) : Option String :=
  let mid := pyOr2 (pyOr2 (pyGet r "module_id") (pyGet r "moduleid")) (pyGet r "id")
  let mid := if pyIsna mid || pyStrip (pyStrV mid) = "" then pyGet r "id" else mid
  if pyIsna mid || pyStrip (pyStrV mid) = "" then Option.none
  else some (pyStrip (pyStrV mid))

/-- The baseline map module_key -> row (load.py lines 236-249). -/
def buildBaseMap (rows : List Dict) : List (String × Dict) :=
  rows.foldl
    (fun m r =>
      match base_key_of r with
      | some k => aset m k r
      | Option.none => m)
    []

/-- The change-set computation of load.py lines 254-263: a key is changed when
it is new or its row differs from the baseline row.  There is no store probe
in this loop. -/
def changed_module_keys (newMap baseMap : List (String × Dict)) : List String :=
  newMap.foldl
    (fun acc kv =>
      match aget baseMap kv.1 with
      | Option.none => acc ++ [kv.1]
      | some b => if rows_differ kv.2 b then acc ++ [kv.1] else acc)
    []

/-- The DynamoDB table of the metasploit feed: partition key (attribute id,
an arbitrary scalar in the model) to item. -/
abbrev MStore := List (Value × Dict)

/-- Model of table.get_item on the metasploit table. -/
def mstoreGet (s : MStore) (k : Value) : Option Dict := aget s k

/-- Model of a put through the batch writer (overwrite by partition key). -/
def mstorePut (s : MStore) (k : Value) (it : Dict) : MStore := aset s k it

/-- scan_existing_ids_from_ddb of load.py lines 184-197: the id attribute of
every item that has one.  (The Python set is modelled as a list; only
membership and a maximum over it are consumed.) -/
def scanIds (s : MStore) : List Value :=
  s.foldl
    (fun acc p =>
      match aget p.2 "id" with
      | some v => acc ++ [v]
      | Option.none => acc)
    []

/-- The baseline-id collection loop of load.py lines 269-272: every truthy id
field of a baseline row is added to the existing-id set. -/
def baselineIds (m : List (String × Dict)) : List Value :=
  m.foldl
    (fun acc kv =>
      let pid := pyGet kv.2 "id"
      if pyTruthy pid then acc ++ [pid] else acc)
    []

/-- existing_generated_ids as first assembled (load.py lines 266-272): the
scanned store ids together with all baseline ids. -/
def existingIdsInit (s : MStore) (m : List (String × Dict)) : List Value :=
  scanIds s ++ baselineIds m

/-- Model of Python a or b on optional dicts (an empty dict is falsy). -/
def pyDictOr (a b : Option Dict) : Option Dict :=
  match a with
  | some d => if d.isEmpty then b else some d
  | Option.none => b

/-- The year decision of load.py lines 286-299: mod_time, then the first four
characters of uploaded_date, then the wall-clock year (a parameter here). -/
def decide_year (row : Dict) (cy : Nat) : Nat :=
  let mt := pyOr2 (pyOr2 (pyGet row "mod_time") (pyGet row "mod_time")) (pyGet row "modtime")
  match (if pyTruthy mt then extract_year_from_mod_time mt else Option.none) with
  | some y => y
  | Option.none =>
    let ud := pyGet row "uploaded_date"
    match (if pyTruthy ud then intPrefix4 (pyStrV ud) else Option.none) with
    | some y => y
    | Option.none => cy

/-- The id resolution of load.py lines 301-309: reuse the baseline id when it
is truthy and already a member of the existing-id set, otherwise mint a fresh
id for the year and add it to the set. -/
def resolve_generated_id (baselineEntry : Dict) (existing : List Value) (year : Nat) :
    Value × List Value :=
  let exId := pyGet baselineEntry "id"
  if pyTruthy exId && existing.any (fun x => x = exId) then (exId, existing)
  else
    let g := Value.str (next_meta_id_for_year existing year)
    (g, existing ++ [g])

/-- True for a string that strips to empty (the isinstance str check of the
item-building loop). -/
def isEmptyStrV : Value → Bool
  | Value.str s => pyStrip s = ""
  | _ => false

/-- The DynamoDB item built for a changed row (load.py lines 311-322). -/
def build_item (row : Dict) (genId : Value) (k : String) (today : String) : Dict :=
  let item : Dict :=
    row.map (fun kv => (kv.1, if pyIsna kv.2 || isEmptyStrV kv.2 then Value.vnone else kv.2))
  let item := aset item "id" genId
  let item := aset item "module_id" (Value.str k)
  let item := aset item "uploaded_date" (pyOr2 (pyGet item "uploaded_date") (Value.str today))
  aset item "cve_id" (pyGet item "cve_id")

/-- State threaded through the per-changed-key loop: the two maps (whose rows
the loop mutates in place in the source), the growing existing-id set and the
write plan. -/
structure MetaState where
  newMap : List (String × Dict)
  baseMap : List (String × Dict)
  existing : List Value
  toWrite : List Dict
deriving DecidableEq, Repr

/-- The no-op filter of load.py lines 324-340: fetch the store item under the
resolved id and write when it is missing or compares different. -/
def plan_decision (store : MStore) (item : Dict) (gid : Value) : Bool :=
  match mstoreGet store gid with
  | Option.none => true
  | some db => rows_differ item db

/-- One iteration of the per-changed-key loop of load.py lines 278-340:
attach cve_id (mutating the source map's row), decide the year, resolve the
id, build the item, and add it to the write plan unless the store already
holds an equal item under the resolved id. -/
def processKey (store : MStore) (today : String) (cy : Nat) (st : MetaState) (k : String) :
    MetaState :=
  match pyDictOr (aget st.newMap k) (aget st.baseMap k) with
  | Option.none => st
  | some row =>
    let row1 := aset row "cve_id" (cveValue (pyGet row "references"))
    let fromNew :=
      match aget st.newMap k with
      | some d => !d.isEmpty
      | Option.none => false
    let newMap1 := if fromNew then aset st.newMap k row1 else st.newMap
    let baseMap1 :=
      if fromNew then st.baseMap
      else
        match aget st.baseMap k with
        | some _ => aset st.baseMap k row1
        | Option.none => st.baseMap
    let year := decide_year row1 cy
    let baselineEntry := (aget baseMap1 k).getD ([] : Dict)
    let gp := resolve_generated_id baselineEntry st.existing year
    let item := build_item row1 gp.1 k today
    if plan_decision store item gp.1 then
      ⟨newMap1, baseMap1, gp.2, st.toWrite ++ [item]⟩
    else ⟨newMap1, baseMap1, gp.2, st.toWrite⟩

/-- safe_item of the batch-write loop (load.py lines 349-366). -/
def safe_item_of (it : Dict) : Dict :=
  it.map (fun kv => (kv.1, to_safe_value kv.2))

/-- The batch write of load.py lines 342-376: put every planned item under
its id partition key (batch_writer overwrites by partition key). -/
def batch_write (store : MStore) (toWrite : List Dict) : MStore :=
  toWrite.foldl
    (fun s it =>
      let si := safe_item_of it
      mstorePut s (pyGet si "id") si)
    store

/-- merged_map before fixups (load.py lines 380-383): baseline entries,
overwritten by (and extended with) the current entries. -/
def merged_map0 (newMap baseMap : List (String × Dict)) : List (String × Dict) :=
  newMap.foldl (fun m kv => aset m kv.1 kv.2) baseMap

/-- The search of load.py line 394 for a written item of a module key. -/
def find_written (toWrite : List Dict) (k : String) : Option Dict :=
  toWrite.find? (fun it => pyGet it "module_id" = Value.str k)

/-- The per-entry fixup of load.py lines 386-403: backfill id from the write
plan only when the entry's id field is falsy, then force module_id, cve_id
and uploaded_date. -/
def fixup_entry (toWrite : List Dict) (today : String) (k : String) (row : Dict) : Dict :=
  let row :=
    if pyTruthy (pyGet row "id") then row
    else
      match find_written toWrite k with
      | some it => aset row "id" (pyGet it "id")
      | Option.none => row
  let row := aset row "module_id" (Value.str k)
  let row := aset row "cve_id" (pyOr2 (pyGet row "cve_id") (cveValue (pyGet row "references")))
  if pyTruthy (pyGet row "uploaded_date") then row
  else aset row "uploaded_date" (Value.str today)

/-- The in-place fixup loop of load.py lines 386-403 touches at each
iteration only the entry of the iterated key, so on the unique-keyed merged
map it is a pointwise map. -/
def merged_fixed (toWrite : List Dict) (today : String) (m : List (String × Dict)) :
    List (String × Dict) :=
  m.map (fun kv => (kv.1, fixup_entry toWrite today kv.1 kv.2))

/-- The per-row touch-up of load.py lines 411-418 while building the baseline
DataFrame rows. -/
def baseline_row (today : String) (k : String) (row : Dict) : Dict :=
  let r := aset row "id" (pyGet row "id")
  let r := aset r "module_id" (Value.str k)
  let r := aset r "cve_id" (pyGet r "cve_id")
  aset r "uploaded_date" (pyOr2 (pyGet r "uploaded_date") (Value.str today))

/-- The sorted union of all merged columns with the four forced columns
(load.py lines 405-410). -/
def all_cols (m : List (String × Dict)) : List String :=
  let ks := m.foldl (fun acc kv => kv.2.foldl (fun a f => a ++ [f.1]) acc) []
  (ks ++ ["id", "module_id", "cve_id", "uploaded_date"]).foldl (fun s k => keyInsert k s) []

/-- The default pandas NA strings of read_csv. -/
def pdNaStrings : List String :=
  ["", "#N/A", "#N/A N/A", "#NA", "-1.#IND", "-1.#QNAN", "-NaN", "-nan",
   "1.#IND", "1.#QNAN", "<NA>", "N/A", "NA", "NULL", "NaN", "None", "n/a", "nan", "null"]

/-- One CSV write/read round trip of a cell (to_csv then read_csv with
dtype=str): None and NaN write as empty cells and read back as NaN; any other
value writes as its str rendering and reads back as a string, except that the
default pandas NA strings read back as NaN. -/
def csvCell (v : Value) : Value :=
  match v with
  | Value.vnone => nanV
  | Value.float true _ _ => nanV
  | w =>
    let s := pyStrV w
    if s ∈ pdNaStrings then nanV else Value.str s

/-- The baseline CSV as the next run will read it back (load.py lines
405-422): one row per merged entry, over the full sorted column set, each
cell through one CSV round trip. -/
def baseline_csv (today : String) (cols : List String) (m : List (String × Dict)) :
    List Dict :=
  m.map (fun kv =>
    let r := baseline_row today kv.1 kv.2
    cols.map (fun c => (c, csvCell (pyGet r c))))

/-- Outputs of one metasploit sync run. -/
structure MetaResult where
  totalIncoming : Nat
  changed : List String
  toWrite : List Dict
  uploaded : Nat
  store : MStore
  mergedMap : List (String × Dict)
  baselineCsv : List Dict
  published : Bool
deriving Repr

/-- sync_today_with_dynamodb of src/metasploit_db/load.py lines 200-439,
composed from the pipeline pieces above.  today and cy stand for
time.strftime of the run and the wall-clock year. -/
def metaSyncCore (rows : List Dict) (baselineRows : Option (List Dict))
    (store : MStore) (today : String) (cy : Nat) (publishOk : Bool) : MetaResult :=
  let newMap := buildNewMap rows
  let baseMap :=
    match baselineRows with
    | some rs => buildBaseMap rs
    | Option.none => []
  let changed := changed_module_keys newMap baseMap
  let stFinal := changed.foldl (processKey store today cy) ⟨newMap, baseMap, existingIdsInit store baseMap, []⟩
  let toWrite := stFinal.toWrite
  let merged := merged_fixed toWrite today (merged_map0 stFinal.newMap stFinal.baseMap)
  { totalIncoming := rows.length
    changed := changed
    toWrite := toWrite
    uploaded := toWrite.length
    store := batch_write store toWrite
    mergedMap := merged
    baselineCsv := baseline_csv today (all_cols merged) merged
    published := publishOk }

/-- The run-level outcome of the metasploit sync: the baseline write of
load.py lines 421-425 sits in a try/except whose handler only logs, so the
function returns its normal summary whether or not the baseline file could be
persisted (publishOk false models a failing to_csv). -/
def metaSync (rows : List Dict) (baselineRows : Option (List Dict))
    (store : MStore) (today : String) (cy : Nat) (publishOk : Bool) :
    Except Unit MetaResult :=
  Except.ok (metaSyncCore rows baselineRows store today cy publishOk)

/-- True exactly on a normally-returning run. -/
def exceptIsOk : Except Unit α → Bool
  | Except.ok _ => true
  | Except.error _ => false

-- ---------------------------------------------------------------------------
-- The CISA reconciliation pipeline (src/cisa_db/load.py 90-226)
-- ---------------------------------------------------------------------------

/-- load_json_to_map of src/cisa_db/load.py lines 65-75: list of records to
a map keyed by the trimmed str of cveID, skipping falsy cveIDs. -/
def loadJsonToMap (recs : List Dict) : List (String × Dict) :=
  recs.foldl
    (fun m r =>
      let cid := pyGet r "cveID"
      if pyTruthy cid then aset m (pyStrip (pyStrV cid)) r else m)
    []

/-- The DynamoDB table of the CISA feed, keyed by the cveID string. -/
abbrev CStore := List (String × Dict)

/-- Model of table.get_item on the CISA table. -/
def cstoreGet (s : CStore) (k : String) : Option Dict := aget s k

/-- Model of a put through the batch writer (overwrite by partition key). -/
def cstorePut (s : CStore) (k : String) (it : Dict) : CStore := aset s k it

/-- The current-vs-baseline change computation of cisa load.py lines
122-130. -/
def cisa_changed_vs_baseline (currentMap baselineMap : List (String × Dict)) : List String :=
  currentMap.foldl
    (fun acc kv =>
      match aget baselineMap kv.1 with
      | Option.none => acc ++ [kv.1]
      | some b => if items_equal kv.2 (some b) then acc else acc ++ [kv.1])
    []

/-- The self-healing probe of cisa load.py lines 132-141: when a baseline
exists, every baseline key whose store item is missing is collected. -/
def cisa_missing_in_ddb (baselineExists : Bool) (baselineMap : List (String × Dict))
    (store : CStore) : List String :=
  if baselineExists then
    baselineMap.foldl
      (fun acc kv =>
        match cstoreGet store kv.1 with
        | Option.none => acc ++ [kv.1]
        | some _ => acc)
      []
  else []

/-- The combination loop of cisa load.py lines 142-145. -/
def cisa_changed_ids (c1 missing : List String) : List String :=
  missing.foldl (fun acc mid => if mid ∈ acc then acc else acc ++ [mid]) c1

/-- The write-plan loop of cisa load.py lines 152-172: per changed id, fetch
the store item and keep the record only when the store item is missing or
compares different. -/
def cisa_to_write (currentMap baselineMap : List (String × Dict)) (store : CStore)
    (changed : List String) : List Dict :=
  changed.foldl
    (fun acc cid =>
      match pyDictOr (aget currentMap cid) (aget baselineMap cid) with
      | Option.none => acc
      | some r =>
        match cstoreGet store cid with
        | Option.none => acc ++ [r]
        | some db => if items_equal r (some db) then acc else acc ++ [r])
    []

/-- safe_item of the cisa batch-write loop (load.py lines 181-188):
whitespace-only strings become None, then cveID is forced to a str. -/
def cisa_safe_item (r : Dict) : Dict :=
  let si : Dict := r.map (fun kv => (kv.1, if isEmptyStrV kv.2 then Value.vnone else kv.2))
  aset si "cveID" (Value.str (pyStrV (pyGet si "cveID")))

/-- The cisa batch write of load.py lines 174-195. -/
def cisa_batch_write (store : CStore) (toWrite : List Dict) : CStore :=
  toWrite.foldl
    (fun s r =>
      let si := cisa_safe_item r
      cstorePut s (pyStrV (pyGet si "cveID")) si)
    store

/-- Outputs of one CISA sync run. -/
structure CisaResult where
  totalCurrent : Nat
  changedIds : List String
  toWrite : List Dict
  uploaded : Nat
  store : CStore
  publishedRecords : List Dict
deriving Repr

/-- sync_today_with_dynamodb of src/cisa_db/load.py lines 90-226.  The
baseline replace of lines 199-211 re-raises on failure, so a failing publish
aborts the run; on success the baseline file is replaced by the current input
file itself (os.replace), so the published baseline records are exactly the
current records. -/
def cisaSyncCore (current : List Dict) (baselineRows : Option (List Dict))
    (store : CStore) : CisaResult :=
  let currentMap := loadJsonToMap current
  let baselineMap :=
    match baselineRows with
    | some rs => loadJsonToMap rs
    | Option.none => []
  let changed :=
    cisa_changed_ids (cisa_changed_vs_baseline currentMap baselineMap)
      (cisa_missing_in_ddb baselineRows.isSome baselineMap store)
  let toWrite := cisa_to_write currentMap baselineMap store changed
  { totalCurrent := currentMap.length
    changedIds := changed
    toWrite := toWrite
    uploaded := toWrite.length
    store := cisa_batch_write store toWrite
    publishedRecords := current }

/-- The run-level outcome of the CISA sync: the os.replace of lines 199-211
re-raises on failure, after the writes have been attempted, so a failing
publish surfaces as a run-level error instead of a summary. -/
def cisaSync (current : List Dict) (baselineRows : Option (List Dict))
    (store : CStore) (publishOk : Bool) : Except Unit CisaResult :=
  if publishOk then Except.ok (cisaSyncCore current baselineRows store)
  else Except.error ()

-- ---------------------------------------------------------------------------
-- Utility lemmas about the dict operations
-- ---------------------------------------------------------------------------

theorem aget_cons [DecidableEq κ] (p : κ × α) (m : List (κ × α)) (k : κ) :
    aget (p :: m) k = if p.1 = k then some p.2 else aget m k := by
  by_cases h : p.1 = k
  · simp [aget, List.find?_cons_of_pos, h]
  · simp [aget, List.find?_cons_of_neg, h]

theorem aget_map_replace_ne [DecidableEq κ] (m : List (κ × α)) (k k2 : κ) (v : α)
    (h : k2 ≠ k) :
    aget (m.map (fun kv => if kv.1 = k then (k, v) else kv)) k2 = aget m k2 := by
  induction m with
  | nil => rfl
  | cons p t ih =>
    by_cases hp : p.1 = k
    · simp only [List.map_cons, if_pos hp]
      rw [aget_cons, aget_cons, ih]
      have h1 : ¬ (k = k2) := fun hh => h hh.symm
      have h2 : ¬ (p.1 = k2) := by rw [hp]; exact h1
      simp [h1, h2]
    · simp only [List.map_cons, if_neg hp]
      rw [aget_cons, aget_cons, ih]

theorem aget_aset [DecidableEq κ] (m : List (κ × α)) (k : κ) (v : α) (k2 : κ) :
    aget (aset m k v) k2 = if k2 = k then some v else aget m k2 := by
  induction m with
  | nil =>
    simp only [aset, List.any_nil, Bool.false_eq_true, if_false, List.nil_append]
    rw [aget_cons]
    by_cases h : k2 = k
    · subst h; simp
    · have h2 : ¬ (k = k2) := fun hh => h hh.symm
      simp [h, h2, aget]
  | cons p t ih =>
    by_cases hp : p.1 = k
    · have hany : (p :: t).any (fun kv => kv.1 = k) = true := by
        simp [List.any_cons, hp]
      rw [aset, if_pos hany]
      simp only [List.map_cons, if_pos hp]
      rw [aget_cons]
      by_cases h2 : k2 = k
      · subst h2; simp
      · have h3 : ¬ (k = k2) := fun hh => h2 hh.symm
        have h4 : ¬ (p.1 = k2) := by rw [hp]; exact h3
        simp only [h3, if_false, h2, if_false]
        rw [aget_map_replace_ne t k k2 v h2, aget_cons, if_neg h4]
    · by_cases ht : t.any (fun kv => kv.1 = k)
      · have hany : (p :: t).any (fun kv => kv.1 = k) = true := by
          simp [List.any_cons, ht]
        rw [aset, if_pos hany]
        simp only [List.map_cons, if_neg hp]
        rw [aget_cons]
        have iht := ih
        rw [aset, if_pos ht] at iht
        by_cases h3 : p.1 = k2
        · have h5 : ¬ (k2 = k) := fun hh => hp (h3.trans hh)
          simp [h3, h5, aget_cons]
        · simp only [h3, if_false, iht]
          by_cases h2 : k2 = k
          · simp [h2]
          · simp [h2, aget_cons, h3]
      · have hany : ¬ ((p :: t).any (fun kv => kv.1 = k) = true) := by
          simp only [List.any_cons, Bool.or_eq_true, not_or]
          exact ⟨by simp [hp], ht⟩
        rw [aset, if_neg hany]
        simp only [List.cons_append]
        rw [aget_cons]
        have iht := ih
        rw [aset, if_neg ht] at iht
        by_cases h3 : p.1 = k2
        · have h5 : ¬ (k2 = k) := fun hh => hp (h3.trans hh)
          simp [h3, h5, aget_cons]
        · simp only [h3, if_false, iht]
          by_cases h2 : k2 = k
          · simp [h2]
          · simp [h2, aget_cons, h3]

theorem aget_isSome_any [DecidableEq κ] (m : List (κ × α)) (k : κ) :
    (aget m k).isSome = m.any (fun kv => kv.1 = k) := by
  induction m with
  | nil => rfl
  | cons p t ih =>
    rw [aget_cons, List.any_cons]
    by_cases h : p.1 = k
    · simp [h]
    · simp [h, ih]

theorem aset_length [DecidableEq κ] (m : List (κ × α)) (k : κ) (v : α) :
    (aset m k v).length = if (aget m k).isSome then m.length else m.length + 1 := by
  rw [aset, aget_isSome_any]
  by_cases h : m.any (fun kv => kv.1 = k)
  · simp [h]
  · simp [h]

theorem aset_ne_nil [DecidableEq κ] (m : List (κ × α)) (k : κ) (v : α) :
    aset m k v ≠ [] := by
  rw [aset]
  by_cases h : m.any (fun kv => kv.1 = k)
  · cases m with
    | nil => simp at h
    | cons p t => simp [h]
  · simp [h]

theorem mem_aset [DecidableEq κ] (m : List (κ × α)) (k : κ) (v : α) (kv : κ × α)
    (h : kv ∈ aset m k v) : kv ∈ m ∨ kv = (k, v) := by
  rw [aset] at h
  by_cases ha : m.any (fun p => p.1 = k)
  · rw [if_pos ha] at h
    obtain ⟨q, hq, hqe⟩ := List.mem_map.mp h
    by_cases hqk : q.1 = k
    · right; rw [if_pos hqk] at hqe; exact hqe.symm
    · left; rw [if_neg hqk] at hqe; exact hqe ▸ hq
  · rw [if_neg ha] at h
    rcases List.mem_append.mp h with h1 | h2
    · left; exact h1
    · right; simpa using h2

theorem foldl_mem_mono {α β : Type} (f : List α → β → List α)
    (hf : ∀ acc b, ∀ x ∈ acc, x ∈ f acc b) (l : List β) :
    ∀ (acc : List α) (x : α), x ∈ acc → x ∈ l.foldl f acc := by
  induction l with
  | nil => intro acc x hx; simpa using hx
  | cons b t ih => intro acc x hx; exact ih (f acc b) x (hf acc b x hx)

example : normalize_value (Value.str "  NaN ") = Option.none := by decide
example : normalize_value (Value.str " x  ") = some "x" := by decide
example : normalize_value (Value.float false false "1.0") = some "1" := by decide
example : normalize_value (Value.decimal "1.0") = some "1.0" := by decide
example : rows_differ [("a", Value.str "1"), ("uploaded_date", Value.str "x")]
    [("uploaded_date", Value.str "y"), ("a", Value.str "01")] = true := by decide
example : rows_differ [("a", Value.str "1"), ("uploaded_date", Value.str "x")]
    [("uploaded_date", Value.str "y"), ("a", Value.str " 1

 ")] = false := by decide

-- ---------------------------------------------------------------------------
-- Concrete scenarios used by the claim theorems
-- ---------------------------------------------------------------------------

/-- A one-record incoming extract (module key modA). -/
def c5rows : List Dict :=
  [[("id", Value.str "modA"), ("name", Value.str "x"),
    ("uploaded_date", Value.str "2025-10-12")]]

/-- First metasploit run: no baseline, empty store. -/
def c5run1 : MetaResult := metaSyncCore c5rows Option.none ([] : MStore) "2025-10-12" 2025 true

/-- Second metasploit run on identical input, with the store and the baseline
exactly as the first run left them. -/
def c5run2 : MetaResult :=
  metaSyncCore c5rows (some c5run1.baselineCsv) c5run1.store "2025-10-12" 2025 true

/-- C5 (code bug): running the metasploit sync twice on identical input does
NOT produce zero writes on the second run.  The first run mints
META-2025-000001 and writes one item, but while merging the baseline the code
keeps the raw CSV id column (the module key) instead of the generated id
(load.py lines 386-396), so the second run resolves the module key itself as
the partition id, finds no store item under it, and rewrites the record: the
second run's write plan has size one (and its single item is keyed by the
module key modA, not by a META id). -/
theorem c5_second_run_rewrites :
    c5run1.toWrite.length = 1 ∧
    c5run2.toWrite.length = 1 ∧
    c5run2.toWrite.map (fun it => pyGet it "id") = [Value.str "modA"] := by
  exact ⟨by decide, by decide, by decide⟩

/-- C2 counterexample: the metasploit variant does not surface a baseline
persistence failure - with a failing baseline write the sync still returns a
normal summary (Except.ok), refuting the claim that every feed variant aborts
the run. -/
theorem c2_counterexample :
    exceptIsOk (metaSync [] Option.none ([] : MStore) "2025-10-12" 2025 false) = true := rfl

/-- C2 amended: a baseline-publish failure is fatal for the CISA variant (the
sync aborts with a run-level error for every input), while the metasploit
variant catches the failure, logs it, and returns its normal summary for
every input. -/
theorem c2_amended :
    (∀ (current : List Dict) (baselineRows : Option (List Dict)) (store : CStore),
      cisaSync current baselineRows store false = Except.error ()) ∧
    (∀ (rows : List Dict) (baselineRows : Option (List Dict)) (store : MStore)
      (today : String) (cy : Nat),
      exceptIsOk (metaSync rows baselineRows store today cy false) = true) :=
  ⟨fun _ _ _ => rfl, fun _ _ _ _ _ => rfl⟩

/-- C4 counterexample: the write-time coercion and comparison-time
normalization do not commute.  A finite float rendered 1.0 is written as
Decimal 1.0, which normalizes to the string 1.0, while the float itself
normalizes to 1; likewise the epss coercion turns the string 01 into
Decimal 1, which normalizes to 1 instead of 01. -/
theorem c4_counterexample :
    normalize_value (to_safe_value (Value.float false false "1.0")) ≠
      normalize_value (Value.float false false "1.0") ∧
    normalize_value (to_ddb_value (Value.str "01")) ≠ normalize_value (Value.str "01") :=
  ⟨by decide, by decide⟩

/-- True exactly on finite (non-NaN, non-infinite) floats. -/
def isFiniteFloat : Value → Bool
  | Value.float false false _ => true
  | _ => false

/-- C4 amended: for every value that is not a finite float (None, strings,
Decimals, NaN and infinite floats), normalizing the store-safe representation
produced by the metasploit write loop agrees with normalizing the original
value; finite floats are the exception shown in the counterexample. -/
theorem c4_amended (v : Value) (h : isFiniteFloat v = false) :
    normalize_value (to_safe_value v) = normalize_value v := by
  cases v with
  | vnone => rfl
  | decimal rep => rfl
  | float b1 b2 rep =>
    cases b1 with
    | true => rfl
    | false =>
      cases b2 with
      | true => rfl
      | false => simp [isFiniteFloat] at h
  | str s =>
    by_cases hs : pyStrip s = ""
    · simp [to_safe_value, normalize_value, hs]
    · simp [to_safe_value, normalize_value, hs]

/-- Witness for c4_amended at a concrete non-float value. -/
theorem c4_amended_witness :
    normalize_value (to_safe_value (Value.str " x ")) = normalize_value (Value.str " x ") :=
  c4_amended (Value.str " x ") (by decide)

-- ---------------------------------------------------------------------------
-- Lemmas about the id allocator
-- ---------------------------------------------------------------------------

theorem digitChar_isDigit (d : Nat) (h : d < 10) : isDigitB (digitChar d) = true := by
  interval_cases d <;> rfl

theorem digitChar_val (d : Nat) (h : d < 10) : (digitChar d).toNat - 48 = d := by
  interval_cases d <;> rfl

theorem digitsVal_append_single (xs : List Char) (c : Char) :
    digitsVal (xs ++ [c]) = digitsVal xs * 10 + (c.toNat - 48) := by
  rw [digitsVal, digitsVal, List.foldl_append]
  rfl

theorem natDigitsAux_spec (fuel : Nat) : ∀ n, n < fuel →
    (natDigitsAux fuel n).all isDigitB = true ∧ digitsVal (natDigitsAux fuel n) = n := by
  induction fuel with
  | zero => intro n h; omega
  | succ f ih =>
    intro n h
    by_cases h10 : n < 10
    · rw [natDigitsAux, if_pos h10]
      refine ⟨by simp [digitChar_isDigit n h10], ?_⟩
      show digitsVal ([] ++ [digitChar n]) = n
      rw [digitsVal_append_single]
      simp [digitsVal, digitChar_val n h10]
    · have hlt : n / 10 < n := Nat.div_lt_self (by omega) (by omega)
      have hdiv : n / 10 < f := by omega
      obtain ⟨ha, hv⟩ := ih (n / 10) hdiv
      rw [natDigitsAux, if_neg h10]
      constructor
      · rw [List.all_append, ha]
        simp [digitChar_isDigit (n % 10) (Nat.mod_lt n (by omega))]
      · rw [digitsVal_append_single, hv, digitChar_val (n % 10) (Nat.mod_lt n (by omega))]
        have := Nat.div_add_mod n 10
        omega

theorem natRepr_all_digits (n : Nat) : (natRepr n).all isDigitB = true :=
  (natDigitsAux_spec (n + 1) n (by omega)).1

theorem natRepr_val (n : Nat) : digitsVal (natRepr n) = n :=
  (natDigitsAux_spec (n + 1) n (by omega)).2

theorem natRepr_ne_nil (n : Nat) : natRepr n ≠ [] := by
  rw [natRepr, natDigitsAux]
  by_cases h : n < 10
  · simp [h]
  · simp [h]

theorem natDigitsAux_len1 (fuel n : Nat) (hf : n < fuel) (h : n < 10) :
    (natDigitsAux fuel n).length = 1 := by
  cases fuel with
  | zero => omega
  | succ f => rw [natDigitsAux, if_pos h]; rfl

theorem natDigitsAux_len2 (fuel n : Nat) (hf : n < fuel) (h1 : 10 ≤ n) (h2 : n ≤ 99) :
    (natDigitsAux fuel n).length = 2 := by
  cases fuel with
  | zero => omega
  | succ f =>
    rw [natDigitsAux, if_neg (by omega)]
    rw [List.length_append]
    have hlt : n / 10 < n := Nat.div_lt_self (by omega) (by omega)
    have hd1 : n / 10 < 10 := by omega
    rw [natDigitsAux_len1 f (n / 10) (by omega) hd1]
    rfl

theorem natDigitsAux_len3 (fuel n : Nat) (hf : n < fuel) (h1 : 100 ≤ n) (h2 : n ≤ 999) :
    (natDigitsAux fuel n).length = 3 := by
  cases fuel with
  | zero => omega
  | succ f =>
    rw [natDigitsAux, if_neg (by omega)]
    rw [List.length_append]
    have hlt : n / 10 < n := Nat.div_lt_self (by omega) (by omega)
    have hd1 : 10 ≤ n / 10 := Nat.le_div_iff_mul_le (by omega) |>.mpr (by omega)
    have hd2 : n / 10 ≤ 99 := by omega
    rw [natDigitsAux_len2 f (n / 10) (by omega) hd1 hd2]
    rfl

theorem natDigitsAux_len4 (fuel n : Nat) (hf : n < fuel) (h1 : 1000 ≤ n) (h2 : n ≤ 9999) :
    (natDigitsAux fuel n).length = 4 := by
  cases fuel with
  | zero => omega
  | succ f =>
    rw [natDigitsAux, if_neg (by omega)]
    rw [List.length_append]
    have hlt : n / 10 < n := Nat.div_lt_self (by omega) (by omega)
    have hd1 : 100 ≤ n / 10 := Nat.le_div_iff_mul_le (by omega) |>.mpr (by omega)
    have hd2 : n / 10 ≤ 999 := by omega
    rw [natDigitsAux_len3 f (n / 10) (by omega) hd1 hd2]
    rfl

theorem natRepr_year_shape (y : Nat) (h1 : 1000 ≤ y) (h2 : y ≤ 9999) :
    ∃ a b c d, natRepr y = [a, b, c, d] ∧ isDigitB a = true ∧ isDigitB b = true ∧
      isDigitB c = true ∧ isDigitB d = true ∧ digitsVal [a, b, c, d] = y := by
  have hlen : (natRepr y).length = 4 := natDigitsAux_len4 (y + 1) y (by omega) h1 h2
  have hall := natRepr_all_digits y
  have hval := natRepr_val y
  rcases hr : natRepr y with _ | ⟨a, _ | ⟨b, _ | ⟨c, _ | ⟨d, rest⟩⟩⟩⟩ <;>
    rw [hr] at hlen <;> simp at hlen
  subst hlen
  rw [hr] at hall hval
  simp only [List.all_cons, List.all_nil, Bool.and_eq_true] at hall
  exact ⟨a, b, c, d, rfl, hall.1, hall.2.1, hall.2.2.1, hall.2.2.2.1, hval⟩

theorem foldl_digits_zero (j : Nat) :
    List.foldl (fun a c => a * 10 + (c.toNat - 48)) 0 (List.replicate j '0') = 0 := by
  induction j with
  | zero => rfl
  | succ i ih => rw [List.replicate_succ, List.foldl_cons]; simpa using ih

theorem digitsVal_zfill (w : Nat) (cs : List Char) :
    digitsVal (zfill w cs) = digitsVal cs := by
  rw [zfill, digitsVal, digitsVal, List.foldl_append, foldl_digits_zero]

theorem zfill_all_digits (w : Nat) (cs : List Char) (h : cs.all isDigitB = true) :
    (zfill w cs).all isDigitB = true := by
  rw [zfill, List.all_append, h]
  have : (List.replicate (w - cs.length) '0').all isDigitB = true := by
    rw [List.all_eq_true]
    intro c hc
    rw [List.eq_of_mem_replicate hc]
    rfl
  simp [this]

theorem zfill_ne_nil (w : Nat) (cs : List Char) (h : cs ≠ []) : zfill w cs ≠ [] := by
  rw [zfill]
  intro hcon
  rcases List.append_eq_nil.mp hcon with ⟨_, h2⟩
  exact h h2

theorem parse_generated (existing : List Value) (y : Nat) (h1 : 1000 ≤ y) (h2 : y ≤ 9999) :
    parse_meta_id (Value.str (next_meta_id_for_year existing y)) =
      some (y, max_seq_for_year existing y + 1) := by
  obtain ⟨a, b, c, d, hrep, ha, hb, hc, hd, hval⟩ := natRepr_year_shape y h1 h2
  have htail_ne : zfill 6 (natRepr (max_seq_for_year existing y + 1)) ≠ [] :=
    zfill_ne_nil 6 _ (natRepr_ne_nil _)
  have htail_all : (zfill 6 (natRepr (max_seq_for_year existing y + 1))).all isDigitB = true :=
    zfill_all_digits 6 _ (natRepr_all_digits _)
  have htail_val : digitsVal (zfill 6 (natRepr (max_seq_for_year existing y + 1)))
      = max_seq_for_year existing y + 1 := by
    rw [digitsVal_zfill, natRepr_val]
  have hdata : (next_meta_id_for_year existing y).data =
      'M' :: 'E' :: 'T' :: 'A' :: '-' ::
        (a :: b :: c :: d :: '-' :: zfill 6 (natRepr (max_seq_for_year existing y + 1))) := by
    rw [next_meta_id_for_year, hrep]
    rfl
  have hne : ¬ (next_meta_id_for_year existing y = "") := by
    intro hh
    have := congrArg String.data hh
    rw [hdata] at this
    simp [String.data] at this
  have htr : pyTruthy (Value.str (next_meta_id_for_year existing y)) = true := by
    simp [pyTruthy, hne]
  rw [parse_meta_id, htr]
  simp only [Bool.true_eq_false, if_false, pyStrV]
  rw [hdata]
  dsimp only
  rw [if_pos ⟨rfl, rfl, rfl, rfl, rfl⟩]
  dsimp only [parse_year_seq]
  rw [if_pos ⟨rfl, ha, hb, hc, hd, htail_ne, htail_all⟩, hval, htail_val]

theorem max_seq_step_ge (year acc : Nat) (mid : Value) : acc ≤ max_seq_step year acc mid := by
  rw [max_seq_step]
  cases hp : parse_meta_id mid with
  | none => exact Nat.le_refl acc
  | some p =>
    obtain ⟨y, s⟩ := p
    dsimp only
    split
    · rename_i hcond
      simp only [Bool.and_eq_true, decide_eq_true_eq] at hcond
      omega
    · exact Nat.le_refl acc

theorem max_seq_fold_mono (l : List Value) (year : Nat) :
    ∀ acc, acc ≤ l.foldl (max_seq_step year) acc := by
  induction l with
  | nil => intro acc; simp
  | cons v t ih =>
    intro acc
    exact Nat.le_trans (max_seq_step_ge year acc v) (ih (max_seq_step year acc v))

theorem mem_le_max_seq (l : List Value) (year s : Nat) (v : Value) :
    ∀ acc, v ∈ l → parse_meta_id v = some (year, s) →
      s ≤ l.foldl (max_seq_step year) acc := by
  induction l with
  | nil => intro acc h; simp at h
  | cons w t ih =>
    intro acc hmem hp
    rcases List.mem_cons.mp hmem with h1 | h2
    · subst h1
      have hstep : s ≤ max_seq_step year acc v := by
        rw [max_seq_step, hp]
        dsimp only
        by_cases hlt : acc < s
        · simp [hlt]
        · have : (decide (year = year) && decide (acc < s)) = false := by simp [hlt]
          rw [this]
          simp only [Bool.false_eq_true, if_false]
          omega
      exact Nat.le_trans hstep (max_seq_fold_mono t year _)
    · exact ih (max_seq_step year acc w) h2 hp

/-- C7 counterexample: for a partition year that does not render as four
digits the allocator CAN return an id that is already a member of the
existing-id set - year 25 with existing id META-25-000001 yields
META-25-000001 again (the parse regex requires exactly four year digits, so
the existing id never contributes to the maximum sequence). -/
theorem c7_counterexample :
    Value.str (next_meta_id_for_year [Value.str "META-25-000001"] 25) ∈
      [Value.str "META-25-000001"] := by decide

/-- C7 amended: the allocator example holds (existing ids META-2025-000001
and META-2025-000002 with partition 2025 yield META-2025-000003), and for
every partition year whose decimal rendering is exactly four digits
(1000-9999, every year this feed can realistically derive) the returned id is
never already a member of the existing-id set. -/
theorem c7_amended :
    next_meta_id_for_year [Value.str "META-2025-000001", Value.str "META-2025-000002"] 2025
      = "META-2025-000003" ∧
    ∀ (existing : List Value) (y : Nat), 1000 ≤ y → y ≤ 9999 →
      Value.str (next_meta_id_for_year existing y) ∉ existing := by
  constructor
  · decide
  · intro existing y h1 h2 hmem
    have hp := parse_generated existing y h1 h2
    have hle := mem_le_max_seq existing y (max_seq_for_year existing y + 1) _ 0 hmem hp
    rw [show existing.foldl (max_seq_step y) 0 = max_seq_for_year existing y from rfl] at hle
    omega

/-- Witness for c7_amended: freshness at a concrete existing set and year. -/
theorem c7_amended_witness :
    Value.str (next_meta_id_for_year [Value.str "META-2025-000007"] 2025) ∉
      ([Value.str "META-2025-000007"] : List Value) :=
  c7_amended.2 [Value.str "META-2025-000007"] 2025 (by decide) (by decide)

-- ---------------------------------------------------------------------------
-- Membership lemmas for the collection folds
-- ---------------------------------------------------------------------------

theorem aget_some_mem [DecidableEq κ] (m : List (κ × α)) (k : κ) (v : α)
    (h : aget m k = some v) : (k, v) ∈ m := by
  rw [aget] at h
  cases hf : List.find? (fun kv => kv.1 = k) m with
  | none => rw [hf] at h; simp at h
  | some kv =>
    rw [hf] at h
    have h1 := List.find?_some hf
    have h2 := List.mem_of_find?_eq_some hf
    obtain ⟨k0, v0⟩ := kv
    simp at h h1
    subst h1
    subst h
    exact h2

theorem baselineIds_mono (t : List (String × Dict)) (acc : List Value) (x : Value)
    (hx : x ∈ acc) :
    x ∈ t.foldl
      (fun acc kv =>
        let pid := pyGet kv.2 "id"
        if pyTruthy pid then acc ++ [pid] else acc)
      acc := by
  apply foldl_mem_mono
  · intro a b z hz
    dsimp only
    split
    · exact List.mem_append_left _ hz
    · exact hz
  · exact hx

theorem mem_baselineIds_aux (m : List (String × Dict)) (kv : String × Dict)
    (hmem : kv ∈ m) (ht : pyTruthy (pyGet kv.2 "id") = true) :
    ∀ acc, pyGet kv.2 "id" ∈ m.foldl
      (fun acc kv =>
        let pid := pyGet kv.2 "id"
        if pyTruthy pid then acc ++ [pid] else acc)
      acc := by
  induction m with
  | nil => intro acc; simp at hmem
  | cons b t ih =>
    intro acc
    rw [List.foldl_cons]
    rcases List.mem_cons.mp hmem with h1 | h2
    · subst h1
      apply baselineIds_mono
      dsimp only
      rw [if_pos ht]
      exact List.mem_append_right _ (by simp)
    · exact ih h2 _

theorem mem_baselineIds (m : List (String × Dict)) (kv : String × Dict)
    (hmem : kv ∈ m) (ht : pyTruthy (pyGet kv.2 "id") = true) :
    pyGet kv.2 "id" ∈ baselineIds m :=
  mem_baselineIds_aux m kv hmem ht []

-- ---------------------------------------------------------------------------
-- C1: surrogate-id reuse
-- ---------------------------------------------------------------------------

/-- Baseline with a recorded generated id for module key m. -/
def c1baseRows : List Dict :=
  [[("module_id", Value.str "m"), ("id", Value.str "META-2025-000001"),
    ("name", Value.str "x")]]

/-- Current extract in which module m changed. -/
def c1rows : List Dict := [[("id", Value.str "m"), ("name", Value.str "y")]]

/-- C1 counterexample: the live store is empty, so its scanned id set is
empty and the claim demands a fresh id for the changed record; the sync
nevertheless reuses the baseline's META-2025-000001, because the membership
test is made against the union of the scanned ids and all baseline ids
(load.py lines 266-272), which always contains the baseline's own id. -/
theorem c1_counterexample :
    scanIds ([] : MStore) = [] ∧
    (metaSyncCore c1rows (some c1baseRows) ([] : MStore) "2025-10-12" 2025 true).toWrite.map
      (fun it => pyGet it "id") = [Value.str "META-2025-000001"] :=
  ⟨rfl, by decide⟩

/-- C1 amended: an id is reused if and only if the baseline records a truthy
id for the key - the existing-id set the membership check runs against is the
union of the scanned store ids and every baseline id, so a baseline id is
always a member and confirmation from the live store is not required; when
the baseline has no (truthy) id, a fresh id for the year is allocated. -/
theorem c1_amended :
    (∀ (store : MStore) (baseMap : List (String × Dict)) (k : String) (entry : Dict)
      (year : Nat),
      aget baseMap k = some entry → pyTruthy (pyGet entry "id") = true →
      (resolve_generated_id entry (existingIdsInit store baseMap) year).1 =
        pyGet entry "id") ∧
    (∀ (entry : Dict) (existing : List Value) (year : Nat),
      pyTruthy (pyGet entry "id") = false →
      (resolve_generated_id entry existing year).1 =
        Value.str (next_meta_id_for_year existing year)) := by
  constructor
  · intro store baseMap k entry year h ht
    have hmem : pyGet entry "id" ∈ existingIdsInit store baseMap := by
      rw [existingIdsInit]
      exact List.mem_append_right _
        (mem_baselineIds baseMap (k, entry) (aget_some_mem baseMap k entry h) ht)
    have hany : (existingIdsInit store baseMap).any (fun x => x = pyGet entry "id") = true := by
      rw [List.any_eq_true]
      exact ⟨_, hmem, by simp⟩
    rw [resolve_generated_id, ht, hany]
    simp
  · intro entry existing year h
    rw [resolve_generated_id, h]
    simp

/-- Witness for c1_amended: both directions applied at concrete inputs. -/
theorem c1_amended_witness :
    (resolve_generated_id [("id", Value.str "META-2025-000001")]
      (existingIdsInit ([] : MStore)
        [("m", [("id", Value.str "META-2025-000001")])]) 2025).1
      = pyGet [("id", Value.str "META-2025-000001")] "id" :=
  c1_amended.1 ([] : MStore) [("m", [("id", Value.str "META-2025-000001")])] "m"
    [("id", Value.str "META-2025-000001")] 2025 (by decide) (by decide)

-- ---------------------------------------------------------------------------
-- C10: the shape of items_equal
-- ---------------------------------------------------------------------------

/-- C10: items_equal inspects only the fields of its first argument - when
rec_b agrees with rec_a on every field of rec_a other than uploaded_date, it
returns true whatever extra fields rec_b carries; in particular it is not
symmetric (a record with an extra field compares equal one way and different
the other way). -/
theorem c10_items_equal :
    (∀ (a b : Dict), (∀ kv ∈ a, kv.1 ≠ "uploaded_date" → pyGet b kv.1 = pyGet a kv.1) →
      items_equal a (some b) = true) ∧
    items_equal [("x", Value.str "1")]
      (some [("x", Value.str "1"), ("y", Value.str "2")]) = true ∧
    items_equal [("x", Value.str "1"), ("y", Value.str "2")]
      (some [("x", Value.str "1")]) = false := by
  refine ⟨?_, by decide, by decide⟩
  intro a b h
  show a.all (fun kv => kv.1 = "uploaded_date" || pyGet a kv.1 = pyGet b kv.1) = true
  rw [List.all_eq_true]
  intro kv hkv
  by_cases hd : kv.1 = "uploaded_date"
  · simp [hd]
  · have := h kv hkv hd
    simp [hd, this]

/-- Witness for c10_items_equal: the universally quantified direction at a
concrete record pair with a store-side extra attribute. -/
theorem c10_items_equal_witness :
    items_equal [("sev", Value.str "high")]
      (some [("sev", Value.str "high"), ("extra", Value.str "z")]) = true :=
  c10_items_equal.1 [("sev", Value.str "high")]
    [("sev", Value.str "high"), ("extra", Value.str "z")] (by decide)

-- ---------------------------------------------------------------------------
-- C3: the self-healing branch
-- ---------------------------------------------------------------------------

/-- Current extract identical in content to the baseline record. -/
def c3rows : List Dict := [[("id", Value.str "m"), ("name", Value.str "x")]]

/-- Baseline holding the same record (plus its bookkeeping uploaded_date). -/
def c3baseRows : List Dict :=
  [[("id", Value.str "m"), ("name", Value.str "x"),
    ("uploaded_date", Value.str "2025-10-11")]]

/-- C3 counterexample: in the metasploit variant a key that is present in the
baseline, unchanged in fingerprint, and missing from the (empty) live store
is NOT added to the change set - the change set and the write plan are both
empty, so the record is never re-added.  The metasploit change-set loop
(load.py lines 254-263) has no store probe at all. -/
theorem c3_counterexample :
    (aget (buildBaseMap c3baseRows) "m").isSome = true ∧
    mstoreGet ([] : MStore) (Value.str "m") = Option.none ∧
    (metaSyncCore c3rows (some c3baseRows) ([] : MStore) "2025-10-12" 2025 true).changed
      = [] ∧
    (metaSyncCore c3rows (some c3baseRows) ([] : MStore) "2025-10-12" 2025 true).toWrite
      = [] :=
  ⟨by decide, rfl, by decide, by decide⟩

theorem missing_in_ddb_mono (t : List (String × Dict)) (store : CStore)
    (acc : List String) (x : String) (hx : x ∈ acc) :
    x ∈ t.foldl
      (fun acc kv =>
        match cstoreGet store kv.1 with
        | Option.none => acc ++ [kv.1]
        | some _ => acc)
      acc := by
  apply foldl_mem_mono
  · intro a b z hz
    dsimp only
    cases cstoreGet store b.1 with
    | none => exact List.mem_append_left _ hz
    | some _ => exact hz
  · exact hx

theorem mem_missing_in_ddb_aux (m : List (String × Dict)) (store : CStore)
    (kv : String × Dict) (hmem : kv ∈ m) (hm : cstoreGet store kv.1 = Option.none) :
    ∀ acc, kv.1 ∈ m.foldl
      (fun acc kv =>
        match cstoreGet store kv.1 with
        | Option.none => acc ++ [kv.1]
        | some _ => acc)
      acc := by
  induction m with
  | nil => intro acc; simp at hmem
  | cons b t ih =>
    intro acc
    rw [List.foldl_cons]
    rcases List.mem_cons.mp hmem with h1 | h2
    · subst h1
      apply missing_in_ddb_mono
      dsimp only
      rw [hm]
      exact List.mem_append_right _ (by simp)
    · exact ih h2 _

theorem mem_missing_in_ddb (m : List (String × Dict)) (store : CStore)
    (kv : String × Dict) (hmem : kv ∈ m) (hm : cstoreGet store kv.1 = Option.none) :
    kv.1 ∈ cisa_missing_in_ddb true m store := by
  rw [cisa_missing_in_ddb, if_pos rfl]
  exact mem_missing_in_ddb_aux m store kv hmem hm []

theorem mem_cisa_changed_ids_aux (missing : List String) (k : String) (h : k ∈ missing) :
    ∀ acc, k ∈ missing.foldl (fun acc mid => if mid ∈ acc then acc else acc ++ [mid]) acc := by
  induction missing with
  | nil => simp at h
  | cons b t ih =>
    intro acc
    rw [List.foldl_cons]
    rcases List.mem_cons.mp h with h1 | h2
    · subst h1
      apply foldl_mem_mono
      · intro a x z hz
        dsimp only
        split
        · exact hz
        · exact List.mem_append_left _ hz
      · by_cases hb : k ∈ acc
        · simp [hb]
        · simp [hb]
    · exact ih h2 _

theorem mem_cisa_changed_ids (c1 missing : List String) (k : String) (h : k ∈ missing) :
    k ∈ cisa_changed_ids c1 missing :=
  mem_cisa_changed_ids_aux missing k h c1

/-- C3 amended: the self-healing branch exists only in the CISA variant - for
every run with a baseline, every baseline key whose live-store item is
missing enters the Change Set (proved below end to end on the CISA sync),
while the metasploit variant computes its change set from
current-versus-baseline alone, so such a key is not re-added there (the
counterexample). -/
theorem c3_amended (current baseRows : List Dict) (store : CStore) (k : String)
    (entry : Dict) (hb : aget (loadJsonToMap baseRows) k = some entry)
    (hm : cstoreGet store k = Option.none) :
    k ∈ (cisaSyncCore current (some baseRows) store).changedIds := by
  show k ∈ cisa_changed_ids
    (cisa_changed_vs_baseline (loadJsonToMap current) (loadJsonToMap baseRows))
    (cisa_missing_in_ddb true (loadJsonToMap baseRows) store)
  apply mem_cisa_changed_ids
  exact mem_missing_in_ddb (loadJsonToMap baseRows) store (k, entry)
    (aget_some_mem _ k entry hb) hm

/-- Witness for c3_amended: a concrete baseline key missing from an empty
store enters the CISA change set. -/
theorem c3_amended_witness :
    "CVE-2024-0007" ∈
      (cisaSyncCore [] (some [[("cveID", Value.str "CVE-2024-0007")]])
        ([] : CStore)).changedIds :=
  c3_amended [] [[("cveID", Value.str "CVE-2024-0007")]] ([] : CStore)
    "CVE-2024-0007" [("cveID", Value.str "CVE-2024-0007")] (by decide) rfl

-- ---------------------------------------------------------------------------
-- C6: first-run write-plan size
-- ---------------------------------------------------------------------------

/-- The number of current input records whose natural key is present and
non-empty, counting records (the quantity named by the claim). -/
def countKeyedRecords (rows : List Dict) : Nat :=
  rows.countP (fun r => (module_key_of r).isSome)

/-- Two records sharing one natural key. -/
def c6rows : List Dict := [[("id", Value.str "a")], [("id", Value.str "a")]]

/-- C6 counterexample: on a first run with two records that share a natural
key, the write plan has size one while the number of records with a non-empty
natural key is two - the incoming map collapses duplicate keys, so the claim
as stated fails. -/
theorem c6_counterexample :
    (metaSyncCore c6rows Option.none ([] : MStore) "2025-10-12" 2025 true).toWrite.length
      = 1 ∧
    countKeyedRecords c6rows = 2 :=
  ⟨by decide, by decide⟩

-- ---------------------------------------------------------------------------
-- C9: published-baseline key retention
-- ---------------------------------------------------------------------------

/-- A baseline with one key that the current input no longer carries. -/
def c9baseRows : List Dict :=
  [[("cveID", Value.str "CVE-2024-0001"), ("sev", Value.str "high")]]

/-- Live store holding that record, so no self-heal fires. -/
def c9store : CStore :=
  [("CVE-2024-0001", [("cveID", Value.str "CVE-2024-0001"), ("sev", Value.str "high")])]

/-- C9 counterexample: in the CISA variant the published baseline is the
current input file itself (os.replace, load.py lines 199-211), so a key
present only in the prior baseline is dropped from the published baseline
even though the claim requires it to be retained. -/
theorem c9_counterexample :
    (aget (loadJsonToMap c9baseRows) "CVE-2024-0001").isSome = true ∧
    aget (loadJsonToMap ((cisaSyncCore [] (some c9baseRows) c9store).publishedRecords))
      "CVE-2024-0001" = Option.none :=
  ⟨by decide, by decide⟩

-- ---------------------------------------------------------------------------
-- C8: no-op filtering against the live store
-- ---------------------------------------------------------------------------

theorem pyGet_aset (d : Dict) (k : String) (v : Value) (k2 : String) :
    pyGet (aset d k v) k2 = if k2 = k then v else pyGet d k2 := by
  rw [pyGet, pyGet, aget_aset]
  by_cases h : k2 = k <;> simp [h]

theorem build_item_id (row : Dict) (genId : Value) (k : String) (today : String) :
    pyGet (build_item row genId k today) "id" = genId := by
  simp only [build_item]
  rw [pyGet_aset, if_neg (by decide)]
  rw [pyGet_aset, if_neg (by decide)]
  rw [pyGet_aset, if_neg (by decide)]
  rw [pyGet_aset, if_pos rfl]

theorem processKey_toWrite_cases (store : MStore) (today : String) (cy : Nat)
    (st : MetaState) (k : String) :
    (processKey store today cy st k).toWrite = st.toWrite ∨
    ∃ item, (processKey store today cy st k).toWrite = st.toWrite ++ [item] ∧
      plan_decision store item (pyGet item "id") = true := by
  rw [processKey]
  cases pyDictOr (aget st.newMap k) (aget st.baseMap k) with
  | none => left; rfl
  | some row =>
    dsimp only
    set row1 := aset row "cve_id" (cveValue (pyGet row "references")) with hrow1
    set baseMap1 :=
      if (match aget st.newMap k with
          | some d => !d.isEmpty
          | Option.none => false) then st.baseMap
      else
        match aget st.baseMap k with
        | some _ => aset st.baseMap k row1
        | Option.none => st.baseMap with hbm
    set gp := resolve_generated_id ((aget baseMap1 k).getD ([] : Dict)) st.existing
      (decide_year row1 cy) with hgp
    by_cases hd : plan_decision store (build_item row1 gp.1 k today) gp.1
    · right
      refine ⟨build_item row1 gp.1 k today, ?_, ?_⟩
      · rw [if_pos hd]
      · rw [build_item_id]
        exact hd
    · left
      rw [if_neg hd]

theorem fold_processKey_sound (store : MStore) (today : String) (cy : Nat)
    (ks : List String) :
    ∀ st : MetaState,
      (∀ it ∈ st.toWrite, ∀ db, mstoreGet store (pyGet it "id") = some db →
        rows_differ it db = true) →
      ∀ it ∈ (ks.foldl (processKey store today cy) st).toWrite, ∀ db,
        mstoreGet store (pyGet it "id") = some db → rows_differ it db = true := by
  induction ks with
  | nil => intro st h; simpa using h
  | cons k t ih =>
    intro st h
    rw [List.foldl_cons]
    apply ih
    intro it hit db hdb
    rcases processKey_toWrite_cases store today cy st k with hc | ⟨item, heq, hpd⟩
    · rw [hc] at hit
      exact h it hit db hdb
    · rw [heq] at hit
      rcases List.mem_append.mp hit with h1 | h2
      · exact h it h1 db hdb
      · have hii : it = item := by simpa using h2
        subst hii
        rw [plan_decision, hdb] at hpd
        exact hpd

/-- The candidate DynamoDB item and its resolved partition id that the
per-changed-key loop of load.py lines 278-322 builds for key k from the
looked-up row in a given loop state: exactly the computation processKey
performs before applying the no-op filter of lines 324-340. -/
def meta_candidate (st : MetaState) (today : String) (cy : Nat) (k : String) (row : Dict) :
    Dict × Value :=
  let row1 := aset row "cve_id" (cveValue (pyGet row "references"))
  let fromNew :=
    match aget st.newMap k with
    | some d => !d.isEmpty
    | Option.none => false
  let baseMap1 :=
    if fromNew then st.baseMap
    else
      match aget st.baseMap k with
      | some _ => aset st.baseMap k row1
      | Option.none => st.baseMap
  let gp := resolve_generated_id ((aget baseMap1 k).getD ([] : Dict)) st.existing
    (decide_year row1 cy)
  (build_item row1 gp.1 k today, gp.1)

theorem processKey_includes (store : MStore) (today : String) (cy : Nat)
    (st : MetaState) (k : String) (row : Dict)
    (hrow : pyDictOr (aget st.newMap k) (aget st.baseMap k) = some row)
    (hd : plan_decision store (meta_candidate st today cy k row).1
      (meta_candidate st today cy k row).2 = true) :
    (processKey store today cy st k).toWrite
      = st.toWrite ++ [(meta_candidate st today cy k row).1] := by
  rw [processKey]
  simp only [meta_candidate] at hd
  simp only [hrow, meta_candidate]
  cases hn : aget st.newMap k with
  | none =>
    simp only [hn, Bool.false_eq_true, if_false] at hd ⊢
    cases hb : aget st.baseMap k with
    | none =>
      simp only [hb] at hd ⊢
      rw [if_pos hd]
    | some e =>
      simp only [hb] at hd ⊢
      rw [if_pos hd]
  | some d =>
    cases hie : d.isEmpty with
    | true =>
      simp only [hn, hie, Bool.not_true, Bool.false_eq_true, if_false] at hd ⊢
      cases hb : aget st.baseMap k with
      | none =>
        simp only [hb] at hd ⊢
        rw [if_pos hd]
      | some e =>
        simp only [hb] at hd ⊢
        rw [if_pos hd]
    | false =>
      simp only [hn, hie, Bool.not_false, eq_self_iff_true, if_true] at hd ⊢
      rw [if_pos hd]

theorem fold_processKey_toWrite_mono (store : MStore) (today : String) (cy : Nat)
    (ks : List String) :
    ∀ (st : MetaState) (it : Dict), it ∈ st.toWrite →
      it ∈ (ks.foldl (processKey store today cy) st).toWrite := by
  induction ks with
  | nil => intro st it h; simpa using h
  | cons k t ih =>
    intro st it h
    rw [List.foldl_cons]
    apply ih
    rcases processKey_toWrite_cases store today cy st k with hc | ⟨item, heq, _⟩
    · rw [hc]; exact h
    · rw [heq]; exact List.mem_append_left _ h

theorem loadJsonToMap_key (recs : List Dict) :
    ∀ kv ∈ loadJsonToMap recs, kv.1 = pyStrip (pyStrV (pyGet kv.2 "cveID")) := by
  rw [loadJsonToMap]
  have haux : ∀ (l : List Dict) (m0 : List (String × Dict)),
      (∀ kv ∈ m0, kv.1 = pyStrip (pyStrV (pyGet kv.2 "cveID"))) →
      ∀ kv ∈ l.foldl
        (fun m r =>
          let cid := pyGet r "cveID"
          if pyTruthy cid then aset m (pyStrip (pyStrV cid)) r else m)
        m0,
        kv.1 = pyStrip (pyStrV (pyGet kv.2 "cveID")) := by
    intro l
    induction l with
    | nil => intro m0 h0; simpa using h0
    | cons r t ih =>
      intro m0 h0
      rw [List.foldl_cons]
      apply ih
      intro kv hkv
      dsimp only at hkv
      by_cases ht : pyTruthy (pyGet r "cveID")
      · rw [if_pos ht] at hkv
        rcases mem_aset m0 _ _ kv hkv with h1 | h2
        · exact h0 kv h1
        · rw [h2]
      · rw [if_neg ht] at hkv
        exact h0 kv hkv
  intro kv hkv
  exact haux recs [] (by simp) kv hkv

theorem pyDictOr_some (a b : Option Dict) (r : Dict) (h : pyDictOr a b = some r) :
    a = some r ∨ b = some r := by
  cases a with
  | none => right; exact h
  | some d =>
    simp only [pyDictOr] at h
    by_cases hd : d.isEmpty
    · rw [if_pos hd] at h; right; exact h
    · rw [if_neg hd] at h; left; exact h

theorem cisa_lookup_key (cm bm : List (String × Dict)) (cid : String) (r : Dict)
    (hcm : ∀ kv ∈ cm, kv.1 = pyStrip (pyStrV (pyGet kv.2 "cveID")))
    (hbm : ∀ kv ∈ bm, kv.1 = pyStrip (pyStrV (pyGet kv.2 "cveID")))
    (h : pyDictOr (aget cm cid) (aget bm cid) = some r) :
    cid = pyStrip (pyStrV (pyGet r "cveID")) := by
  rcases pyDictOr_some _ _ _ h with h1 | h1
  · exact hcm (cid, r) (aget_some_mem cm cid r h1)
  · exact hbm (cid, r) (aget_some_mem bm cid r h1)

theorem cisa_to_write_sound_aux (cm bm : List (String × Dict)) (store : CStore)
    (hcm : ∀ kv ∈ cm, kv.1 = pyStrip (pyStrV (pyGet kv.2 "cveID")))
    (hbm : ∀ kv ∈ bm, kv.1 = pyStrip (pyStrV (pyGet kv.2 "cveID")))
    (changed : List String) :
    ∀ acc : List Dict,
      (∀ r ∈ acc, ∀ db, cstoreGet store (pyStrip (pyStrV (pyGet r "cveID"))) = some db →
        items_equal r (some db) = false) →
      ∀ r ∈ changed.foldl
        (fun acc cid =>
          match pyDictOr (aget cm cid) (aget bm cid) with
          | Option.none => acc
          | some r =>
            match cstoreGet store cid with
            | Option.none => acc ++ [r]
            | some db => if items_equal r (some db) then acc else acc ++ [r])
        acc,
        ∀ db, cstoreGet store (pyStrip (pyStrV (pyGet r "cveID"))) = some db →
          items_equal r (some db) = false := by
  induction changed with
  | nil => intro acc hacc; simpa using hacc
  | cons cid t ih =>
    intro acc hacc
    rw [List.foldl_cons]
    apply ih
    intro r hr db hdb
    cases hl : pyDictOr (aget cm cid) (aget bm cid) with
    | none =>
      simp only [hl] at hr
      exact hacc r hr db hdb
    | some rec0 =>
      simp only [hl] at hr
      have hkey : cid = pyStrip (pyStrV (pyGet rec0 "cveID")) :=
        cisa_lookup_key cm bm cid rec0 hcm hbm hl
      cases hs : cstoreGet store cid with
      | none =>
        simp only [hs] at hr
        rcases List.mem_append.mp hr with h1 | h2
        · exact hacc r h1 db hdb
        · have hrr : r = rec0 := by simpa using h2
          subst hrr
          rw [← hkey] at hdb
          rw [hdb] at hs
          exact absurd hs (by simp)
      | some db0 =>
        simp only [hs] at hr
        by_cases he : items_equal rec0 (some db0) = true
        · rw [if_pos he] at hr
          exact hacc r hr db hdb
        · rw [if_neg he] at hr
          rcases List.mem_append.mp hr with h1 | h2
          · exact hacc r h1 db hdb
          · have hrr : r = rec0 := by simpa using h2
            subst hrr
            rw [← hkey] at hdb
            rw [hdb] at hs
            have hdbeq : db = db0 := by
              simpa using hs
            subst hdbeq
            cases hx : items_equal r (some db) with
            | false => rfl
            | true => exact absurd hx he

theorem cisa_to_write_complete_aux (cm bm : List (String × Dict)) (store : CStore)
    (changed : List String) (cid : String) (r : Dict)
    (hc : cid ∈ changed)
    (hl : pyDictOr (aget cm cid) (aget bm cid) = some r)
    (hcond : cstoreGet store cid = Option.none ∨
      (∀ db, cstoreGet store cid = some db → items_equal r (some db) = false)) :
    ∀ acc, r ∈ changed.foldl
      (fun acc cid =>
        match pyDictOr (aget cm cid) (aget bm cid) with
        | Option.none => acc
        | some r =>
          match cstoreGet store cid with
          | Option.none => acc ++ [r]
          | some db => if items_equal r (some db) then acc else acc ++ [r])
      acc := by
  have hmono : ∀ (acc : List Dict) (c : String) (x : Dict), x ∈ acc →
      x ∈ (match pyDictOr (aget cm c) (aget bm c) with
        | Option.none => acc
        | some r =>
          match cstoreGet store c with
          | Option.none => acc ++ [r]
          | some db => if items_equal r (some db) then acc else acc ++ [r]) := by
    intro acc c x hx
    cases pyDictOr (aget cm c) (aget bm c) with
    | none => exact hx
    | some r0 =>
      dsimp only
      cases cstoreGet store c with
      | none => exact List.mem_append_left _ hx
      | some db =>
        dsimp only
        by_cases he : items_equal r0 (some db) = true
        · rw [if_pos he]; exact hx
        · rw [if_neg he]; exact List.mem_append_left _ hx
  induction changed with
  | nil => simp at hc
  | cons c t ih =>
    intro acc
    rw [List.foldl_cons]
    rcases List.mem_cons.mp hc with h1 | h2
    · subst h1
      apply foldl_mem_mono _ (fun a b x hx => hmono a b x hx) t
      simp only [hl]
      cases hs : cstoreGet store cid with
      | none =>
        simp only [hs]
        exact List.mem_append_right _ (by simp)
      | some db0 =>
        simp only [hs]
        rcases hcond with hn | hd
        · rw [hn] at hs
          exact absurd hs (by simp)
        · rw [if_neg (by simp [hd db0 hs])]
          exact List.mem_append_right _ (by simp)
    · exact ih h2 _

/-- C8: for every key of the Change Set the engine fetches the live-store
item under the resolved id and plans a write exactly when the item is missing
or compares different.  Conjunct 1: no metasploit write-plan item has a
store item under its resolved id that compares equal (ignoring
uploaded_date).  Conjunct 2: the same for the CISA write plan (the store is
probed under the record's own trimmed cveID).  Conjunct 3: conversely, every
changed CISA key whose store item is missing or different is included in the
write plan.  Conjunct 4: the metasploit inclusion direction - for any
position of a key in the changed list (ks1 before it, ks2 after it), when the
per-key loop reaches that key with a row to process and the no-op filter
accepts the candidate it builds (the store holds no item under the resolved
id, or a differing one), that candidate item is a member of the final write
plan of the whole loop. -/
theorem c8_write_plan :
    (∀ (rows : List Dict) (baselineRows : Option (List Dict)) (store : MStore)
      (today : String) (cy : Nat) (pub : Bool) (it db : Dict),
      it ∈ (metaSyncCore rows baselineRows store today cy pub).toWrite →
      mstoreGet store (pyGet it "id") = some db → rows_differ it db = true) ∧
    (∀ (current : List Dict) (baselineRows : Option (List Dict)) (store : CStore)
      (r db : Dict),
      r ∈ (cisaSyncCore current baselineRows store).toWrite →
      cstoreGet store (pyStrip (pyStrV (pyGet r "cveID"))) = some db →
      items_equal r (some db) = false) ∧
    (∀ (current baseRows : List Dict) (store : CStore) (cid : String) (r : Dict),
      cid ∈ (cisaSyncCore current (some baseRows) store).changedIds →
      pyDictOr (aget (loadJsonToMap current) cid) (aget (loadJsonToMap baseRows) cid)
        = some r →
      (cstoreGet store cid = Option.none ∨
        (∀ db, cstoreGet store cid = some db → items_equal r (some db) = false)) →
      r ∈ (cisaSyncCore current (some baseRows) store).toWrite) ∧
    (∀ (store : MStore) (today : String) (cy : Nat) (ks1 ks2 : List String)
      (st0 : MetaState) (k : String) (row : Dict),
      pyDictOr (aget (ks1.foldl (processKey store today cy) st0).newMap k)
          (aget (ks1.foldl (processKey store today cy) st0).baseMap k) = some row →
      plan_decision store
          (meta_candidate (ks1.foldl (processKey store today cy) st0) today cy k row).1
          (meta_candidate (ks1.foldl (processKey store today cy) st0) today cy k row).2
        = true →
      (meta_candidate (ks1.foldl (processKey store today cy) st0) today cy k row).1 ∈
        ((ks1 ++ k :: ks2).foldl (processKey store today cy) st0).toWrite) := by
  refine ⟨?_, ?_, ?_, ?_⟩
  · intro rows baselineRows store today cy pub it db hit hdb
    cases baselineRows with
    | none =>
      exact fold_processKey_sound store today cy _ _
        (by intro x hx; simp at hx) it hit db hdb
    | some rs =>
      exact fold_processKey_sound store today cy _ _
        (by intro x hx; simp at hx) it hit db hdb
  · intro current baselineRows store r db hr hdb
    have hcm := loadJsonToMap_key current
    have hbm : ∀ kv ∈ (match baselineRows with
        | some rs => loadJsonToMap rs
        | Option.none => ([] : List (String × Dict))),
        kv.1 = pyStrip (pyStrV (pyGet kv.2 "cveID")) := by
      cases baselineRows with
      | none => intro kv hkv; simp at hkv
      | some rs => exact loadJsonToMap_key rs
    exact cisa_to_write_sound_aux (loadJsonToMap current) _ store hcm hbm _ []
      (by intro r hr; simp at hr) r hr db hdb
  · intro current baseRows store cid r hc hl hcond
    exact cisa_to_write_complete_aux (loadJsonToMap current) (loadJsonToMap baseRows)
      store _ cid r hc hl hcond []
  · intro store today cy ks1 ks2 st0 k row hrow hd
    rw [List.foldl_append, List.foldl_cons]
    apply fold_processKey_toWrite_mono
    rw [processKey_includes store today cy _ k row hrow hd]
    exact List.mem_append_right _ (by simp)

/-- Witness for c8_write_plan: both inclusion directions at concrete runs - a
changed CISA key with no store item lands in the write plan, and a metasploit
candidate accepted by the no-op filter (empty store) lands in the loop's
final write plan. -/
theorem c8_write_plan_witness :
    [("cveID", Value.str "CVE-2024-0009")] ∈
      (cisaSyncCore [[("cveID", Value.str "CVE-2024-0009")]] (some [])
        ([] : CStore)).toWrite ∧
    (meta_candidate ⟨[("m", [("id", Value.str "m")])], [], [], []⟩
        "2025-10-12" 2025 "m" [("id", Value.str "m")]).1 ∈
      ((([] : List String) ++ "m" :: ([] : List String)).foldl
        (processKey ([] : MStore) "2025-10-12" 2025)
        ⟨[("m", [("id", Value.str "m")])], [], [], []⟩).toWrite :=
  ⟨c8_write_plan.2.2.1 [[("cveID", Value.str "CVE-2024-0009")]] [] ([] : CStore)
    "CVE-2024-0009" [("cveID", Value.str "CVE-2024-0009")]
    (by decide) (by decide) (Or.inl rfl),
   c8_write_plan.2.2.2 ([] : MStore) "2025-10-12" 2025 [] []
    ⟨[("m", [("id", Value.str "m")])], [], [], []⟩ "m" [("id", Value.str "m")]
    (by decide) (by decide)⟩

-- ---------------------------------------------------------------------------
-- C6 amended: first-run write-plan size, counted over distinct keys
-- ---------------------------------------------------------------------------

/-- The distinct non-empty natural keys of the current input, in first-seen
order (the corrected write-plan cardinality for a first run). -/
def distinctKeys (rows : List Dict) : List String :=
  rows.foldl
    (fun ks r =>
      match module_key_of r with
      | some k => if k ∈ ks then ks else ks ++ [k]
      | Option.none => ks)
    []

theorem buildNewMap_length_aux (rows : List Dict) :
    ∀ (m : List (String × Dict)) (ks : List String),
      (∀ k, (aget m k).isSome = true ↔ k ∈ ks) → m.length = ks.length →
      (rows.foldl
        (fun m r =>
          match module_key_of r with
          | some k => aset m k r
          | Option.none => m)
        m).length =
      (rows.foldl
        (fun ks r =>
          match module_key_of r with
          | some k => if k ∈ ks then ks else ks ++ [k]
          | Option.none => ks)
        ks).length := by
  induction rows with
  | nil => intro m ks _ hl; exact hl
  | cons r t ih =>
    intro m ks h hl
    rw [List.foldl_cons, List.foldl_cons]
    cases hmk : module_key_of r with
    | none =>
      simp only [hmk]
      exact ih m ks h hl
    | some k =>
      simp only [hmk]
      apply ih
      · intro k2
        rw [aget_aset]
        by_cases h2 : k2 = k
        · subst h2
          simp only [if_pos rfl, Option.isSome_some]
          constructor
          · intro _
            by_cases hk : k2 ∈ ks
            · rw [if_pos hk]; exact hk
            · rw [if_neg hk]; exact List.mem_append_right _ (by simp)
          · intro _; rfl
        · rw [if_neg h2, h k2]
          by_cases hk : k ∈ ks
          · rw [if_pos hk]
          · rw [if_neg hk]
            constructor
            · intro hh; exact List.mem_append_left _ hh
            · intro hh
              rcases List.mem_append.mp hh with h3 | h3
              · exact h3
              · exact absurd (by simpa using h3) h2
      · rw [aset_length]
        by_cases hk : k ∈ ks
        · rw [if_pos ((h k).mpr hk), if_pos hk]
          exact hl
        · have : (aget m k).isSome = false := by
            cases hx : (aget m k).isSome
            · rfl
            · exact absurd ((h k).mp hx) hk
          rw [this]
          simp only [Bool.false_eq_true, if_false, if_neg hk, List.length_append,
            List.length_singleton]
          omega

theorem buildNewMap_length (rows : List Dict) :
    (buildNewMap rows).length = (distinctKeys rows).length := by
  rw [buildNewMap, distinctKeys]
  exact buildNewMap_length_aux rows [] [] (by intro k; simp [aget]) rfl

theorem foldl_append_keys (nm : List (String × Dict)) :
    ∀ acc : List String, nm.foldl (fun acc kv => acc ++ [kv.1]) acc
      = acc ++ nm.map (fun kv => kv.1) := by
  induction nm with
  | nil => intro acc; simp
  | cons p t ih => intro acc; rw [List.foldl_cons, ih]; simp

theorem changed_keys_empty_base (nm : List (String × Dict)) :
    changed_module_keys nm [] = nm.map (fun kv => kv.1) := by
  have h : changed_module_keys nm [] = nm.foldl (fun acc kv => acc ++ [kv.1]) [] := rfl
  rw [h, foldl_append_keys]
  simp

theorem module_key_of_nil : module_key_of [] = Option.none := rfl

theorem buildNewMap_values_ne_nil (rows : List Dict) :
    ∀ kv ∈ buildNewMap rows, kv.2 ≠ [] := by
  rw [buildNewMap]
  have haux : ∀ (l : List Dict) (m0 : List (String × Dict)),
      (∀ kv ∈ m0, kv.2 ≠ []) →
      ∀ kv ∈ l.foldl
        (fun m r =>
          match module_key_of r with
          | some k => aset m k r
          | Option.none => m)
        m0, kv.2 ≠ [] := by
    intro l
    induction l with
    | nil => intro m0 h0; simpa using h0
    | cons r t ih =>
      intro m0 h0
      rw [List.foldl_cons]
      apply ih
      cases hmk : module_key_of r with
      | none => simpa only [hmk] using h0
      | some k =>
        simp only [hmk]
        intro kv hkv
        rcases mem_aset m0 k r kv hkv with h1 | h2
        · exact h0 kv h1
        · rw [h2]
          intro hcon
          dsimp only at hcon
          rw [hcon, module_key_of_nil] at hmk
          exact Option.noConfusion hmk
  intro kv hkv
  exact haux rows [] (by simp) kv hkv

theorem processKey_empty_store_step (today : String) (cy : Nat) (st : MetaState)
    (k : String) (d : Dict) (hd : aget st.newMap k = some d) (hne : d ≠ []) :
    (processKey ([] : MStore) today cy st k).toWrite.length = st.toWrite.length + 1 ∧
    (processKey ([] : MStore) today cy st k).newMap =
      aset st.newMap k (aset d "cve_id" (cveValue (pyGet d "references"))) := by
  have hie : d.isEmpty = false := by
    cases d with
    | nil => exact absurd rfl hne
    | cons a l => rfl
  have hor : pyDictOr (aget st.newMap k) (aget st.baseMap k) = some d := by
    rw [hd]
    simp only [pyDictOr, hie]
    simp
  have hpd : ∀ it g, plan_decision ([] : MStore) it g = true := by
    intro it g
    rfl
  rw [processKey]
  simp only [hor]
  simp only [hd, hie, hpd, Bool.not_false, if_true]
  constructor
  · simp
  · trivial

theorem fold_processKey_count (today : String) (cy : Nat) (ks : List String) :
    ∀ st : MetaState,
      (∀ k ∈ ks, ∃ d, aget st.newMap k = some d ∧ d ≠ []) →
      ((ks.foldl (processKey ([] : MStore) today cy) st).toWrite).length =
        st.toWrite.length + ks.length := by
  induction ks with
  | nil => intro st _; simp
  | cons k t ih =>
    intro st h
    obtain ⟨d, hd, hne⟩ := h k (by simp)
    obtain ⟨hlen, hnm⟩ := processKey_empty_store_step today cy st k d hd hne
    rw [List.foldl_cons]
    rw [ih (processKey ([] : MStore) today cy st k) ?_]
    · rw [hlen]
      simp only [List.length_cons]
      omega
    · intro k2 hk2
      rw [hnm, aget_aset]
      by_cases h2 : k2 = k
      · exact ⟨_, by rw [if_pos h2], aset_ne_nil _ _ _⟩
      · obtain ⟨d2, hd2, hne2⟩ := h k2 (by simp [hk2])
        exact ⟨d2, by rw [if_neg h2]; exact hd2, hne2⟩

/-- C6 amended: on a first run (no baseline, empty store) the write-plan size
equals the number of DISTINCT non-empty natural keys among the current input
records (duplicate keys collapse into one map entry, as the counterexample
shows), and records with an empty or missing natural key are dropped while
the run still returns a normal summary. -/
theorem c6_amended (rows : List Dict) (today : String) (cy : Nat) :
    (metaSyncCore rows Option.none ([] : MStore) today cy true).toWrite.length =
      (distinctKeys rows).length ∧
    exceptIsOk (metaSync rows Option.none ([] : MStore) today cy true) = true := by
  constructor
  · show ((changed_module_keys (buildNewMap rows) []).foldl
        (processKey ([] : MStore) today cy)
        ⟨buildNewMap rows, [], existingIdsInit ([] : MStore) [], []⟩).toWrite.length =
      (distinctKeys rows).length
    rw [fold_processKey_count today cy _ _ ?_]
    · rw [changed_keys_empty_base]
      simp only [List.length_nil, List.length_map, Nat.zero_add]
      exact buildNewMap_length rows
    · intro k hk
      rw [changed_keys_empty_base] at hk
      have hks : (aget (buildNewMap rows) k).isSome = true := by
        rw [aget_isSome_any, List.any_eq_true]
        obtain ⟨kv, hkv, hkeq⟩ := List.mem_map.mp hk
        exact ⟨kv, hkv, by simp [hkeq]⟩
      cases hgx : aget (buildNewMap rows) k with
      | none => rw [hgx] at hks; simp at hks
      | some d =>
        refine ⟨d, rfl, ?_⟩
        exact buildNewMap_values_ne_nil rows (k, d) (aget_some_mem _ k d hgx)
  · rfl


-- ---------------------------------------------------------------------------
-- C9 amended: key retention in the published baseline
-- ---------------------------------------------------------------------------

theorem aget_nil [DecidableEq κ] (k : κ) : aget ([] : List (κ × α)) k = Option.none := rfl

theorem aget_merged_fixed (toWrite : List Dict) (today : String)
    (m : List (String × Dict)) (k : String) :
    aget (merged_fixed toWrite today m) k =
      (aget m k).map (fixup_entry toWrite today k) := by
  rw [merged_fixed]
  induction m with
  | nil => rfl
  | cons p t ih =>
    rw [List.map_cons, aget_cons, aget_cons]
    by_cases h : p.1 = k
    · subst h
      rw [if_pos rfl, if_pos rfl]
      rfl
    · rw [if_neg h, if_neg h, ih]

theorem aget_merged0_aux (nm : List (String × Dict)) :
    ∀ (bm : List (String × Dict)) (k : String),
      aget (nm.foldl (fun m kv => aset m kv.1 kv.2) bm) k = Option.none ↔
        (aget nm k = Option.none ∧ aget bm k = Option.none) := by
  induction nm with
  | nil =>
    intro bm k
    simp [aget_nil]
  | cons p t ih =>
    intro bm k
    rw [List.foldl_cons, ih (aset bm p.1 p.2) k, aget_aset, aget_cons]
    by_cases h : k = p.1
    · subst h
      rw [if_pos rfl, if_pos rfl]
      simp
    · have h2 : ¬ (p.1 = k) := fun hh => h hh.symm
      rw [if_neg h, if_neg h2]

theorem aget_merged0_none (nm bm : List (String × Dict)) (k : String) :
    aget (merged_map0 nm bm) k = Option.none ↔
      (aget nm k = Option.none ∧ aget bm k = Option.none) :=
  aget_merged0_aux nm bm k

theorem aget_aset_isSome_of_mem [DecidableEq κ] (m : List (κ × α)) (k : κ) (v : α)
    (h : (aget m k).isSome = true) (k2 : κ) :
    (aget (aset m k v) k2).isSome = (aget m k2).isSome := by
  rw [aget_aset]
  by_cases h2 : k2 = k
  · rw [if_pos h2, h2, h]
    rfl
  · rw [if_neg h2]

theorem processKey_key_isSome (store : MStore) (today : String) (cy : Nat)
    (st : MetaState) (k k2 : String) :
    (aget (processKey store today cy st k).newMap k2).isSome =
        (aget st.newMap k2).isSome ∧
    (aget (processKey store today cy st k).baseMap k2).isSome =
        (aget st.baseMap k2).isSome := by
  rw [processKey]
  cases ho : pyDictOr (aget st.newMap k) (aget st.baseMap k) with
  | none => exact ⟨rfl, rfl⟩
  | some row =>
    dsimp only
    cases hn : aget st.newMap k with
    | none =>
      simp only [hn, Bool.false_eq_true, if_false]
      cases hb : aget st.baseMap k with
      | none =>
        simp only [hb]
        split <;> exact ⟨rfl, rfl⟩
      | some e =>
        simp only [hb]
        have hbs : (aget st.baseMap k).isSome = true := by rw [hb]; rfl
        split <;> exact ⟨rfl, aget_aset_isSome_of_mem st.baseMap k _ hbs k2⟩
    | some d =>
      cases hie : d.isEmpty with
      | true =>
        simp only [hn, hie, Bool.not_true, Bool.false_eq_true, if_false]
        cases hb : aget st.baseMap k with
        | none =>
          simp only [hb]
          split <;> exact ⟨rfl, rfl⟩
        | some e =>
          simp only [hb]
          have hbs : (aget st.baseMap k).isSome = true := by rw [hb]; rfl
          split <;> exact ⟨rfl, aget_aset_isSome_of_mem st.baseMap k _ hbs k2⟩
      | false =>
        simp only [hn, hie, Bool.not_false, eq_self_iff_true, if_true]
        have hns : (aget st.newMap k).isSome = true := by rw [hn]; rfl
        split <;> exact ⟨aget_aset_isSome_of_mem st.newMap k _ hns k2, rfl⟩

theorem fold_processKey_keys (store : MStore) (today : String) (cy : Nat)
    (ks : List String) :
    ∀ (st : MetaState) (k2 : String),
      (aget (ks.foldl (processKey store today cy) st).newMap k2).isSome =
        (aget st.newMap k2).isSome ∧
      (aget (ks.foldl (processKey store today cy) st).baseMap k2).isSome =
        (aget st.baseMap k2).isSome := by
  induction ks with
  | nil => intro st k2; exact ⟨rfl, rfl⟩
  | cons k t ih =>
    intro st k2
    rw [List.foldl_cons]
    obtain ⟨h1, h2⟩ := ih (processKey store today cy st k) k2
    obtain ⟨h3, h4⟩ := processKey_key_isSome store today cy st k k2
    exact ⟨h1.trans h3, h2.trans h4⟩

theorem opt_none_iff_isSome_false (o : Option α) :
    o = Option.none ↔ o.isSome = false := by
  cases o <;> simp

/-- C9 amended: in the metasploit variant a key disappears from the merged
baseline map exactly when it is absent from both the current input map and
the prior baseline map (current keys and retained baseline-only keys make up
the published baseline); in the CISA variant the published baseline is the
current input itself, so every key of the published baseline comes from the
current input and baseline-only keys are dropped (the counterexample). -/
theorem c9_amended :
    (∀ (rows baseRows : List Dict) (store : MStore) (today : String) (cy : Nat)
      (pub : Bool) (k : String),
      aget (metaSyncCore rows (some baseRows) store today cy pub).mergedMap k
          = Option.none ↔
        (aget (buildNewMap rows) k = Option.none ∧
          aget (buildBaseMap baseRows) k = Option.none)) ∧
    (∀ (current : List Dict) (baselineRows : Option (List Dict)) (store : CStore)
      (k : String),
      (aget (loadJsonToMap ((cisaSyncCore current baselineRows store).publishedRecords))
          k).isSome = true →
      (aget (loadJsonToMap current) k).isSome = true) := by
  constructor
  · intro rows baseRows store today cy pub k
    show aget (merged_fixed _ today
        (merged_map0
          ((changed_module_keys (buildNewMap rows) (buildBaseMap baseRows)).foldl
            (processKey store today cy)
            ⟨buildNewMap rows, buildBaseMap baseRows,
              existingIdsInit store (buildBaseMap baseRows), []⟩).newMap
          ((changed_module_keys (buildNewMap rows) (buildBaseMap baseRows)).foldl
            (processKey store today cy)
            ⟨buildNewMap rows, buildBaseMap baseRows,
              existingIdsInit store (buildBaseMap baseRows), []⟩).baseMap)) k
        = Option.none ↔ _
    rw [aget_merged_fixed, Option.map_eq_none', aget_merged0_none]
    obtain ⟨h1, h2⟩ := fold_processKey_keys store today cy
      (changed_module_keys (buildNewMap rows) (buildBaseMap baseRows))
      ⟨buildNewMap rows, buildBaseMap baseRows,
        existingIdsInit store (buildBaseMap baseRows), []⟩ k
    rw [opt_none_iff_isSome_false, opt_none_iff_isSome_false, h1, h2,
      ← opt_none_iff_isSome_false, ← opt_none_iff_isSome_false]
  · intro current baselineRows store k h
    exact h

/-- Witness for c9_amended: the CISA direction at a concrete published
baseline. -/
theorem c9_amended_witness :
    (aget (loadJsonToMap [[("cveID", Value.str "CVE-2024-0002")]])
      "CVE-2024-0002").isSome = true :=
  c9_amended.2 [[("cveID", Value.str "CVE-2024-0002")]] Option.none ([] : CStore)
    "CVE-2024-0002" (by decide)
